import Mathlib

/-!
# Soundux: the PulseAudio routing backend

A shallow embedding of `src/helper/audio/linux/pulse/pulse.cpp`.

* The audio server is an explicit value `Server`: the sink-input and
  source-output records it would enumerate, its name tables, a policy that
  says which requests it honours, the modules it has loaded, its answers to
  load requests, and the trace of requests received so far.
* The C++ object `PulseAudio` is a record of its member variables; every
  member function takes the object and the server and returns both.
* `await` pumps the main loop until the operation is done; the embedding takes
  the server to complete every operation, so a request is a function call.
* A stream record carries its property list; `pa_proplist_gets` is a lookup
  that may find nothing, and `std::stoi` a parse that may fail. A null pointer
  read and an exception nothing catches end the process: the functions that
  enumerate return `Except Fault`.
* Each function that enumerates has a second form, named with `Pure`, that
  says what it does where the enumerations return; the two are proved equal
  there, and the statements about the code are about the first form.
-/

namespace Soundux.Objects

/-! ## Server records -/

/-- The fields of `pa_sink_input_info` the backend reads. `driver` may be a
null pointer; `proplist` is the property list, keys with their values. -/
structure SinkInputInfo where
  index : Nat
  sink : Nat
  driver : Option String
  proplist : List (String × String)
deriving DecidableEq, Repr

/-- The fields of `pa_source_output_info` the backend reads. `driver` and
`resample_method` may be null pointers. -/
structure SourceOutputInfo where
  index : Nat
  source : Nat
  driver : Option String
  resampleMethod : Option String
  proplist : List (String × String)
deriving DecidableEq, Repr

/-- `pa_proplist_gets`: the value of `key`, `none` for the null pointer it
returns when the list has no such key. -/
def pa_proplist_gets (proplist : List (String × String)) (key : String) : Option String :=
  proplist.lookup key

/-- `isspace` in the "C" locale: blank, `\t`, `\n`, `\v`, `\f`, `\r`. -/
def isSpace (c : Char) : Bool :=
  c = ' ' || (9 ≤ c.toNat && c.toNat ≤ 13)

/-- The number the decimal digits `digits` write. -/
def digitsValue (digits : List Char) : Nat :=
  digits.foldl (fun n c => 10 * n + (c.toNat - 48)) 0

/-- `std::stoi(str)`, base 10: leading white space is skipped, a sign may
follow, then the longest run of digits is read and what comes after it is
left alone. `none` stands for the exception: `std::invalid_argument` when
there is no digit to read, `std::out_of_range` when the number is no `int`. -/
def stoi (str : String) : Option Int :=
  match
    (match str.data.dropWhile isSpace with
      | '-' :: rest => (true, rest.takeWhile Char.isDigit)
      | '+' :: rest => (false, rest.takeWhile Char.isDigit)
      | rest => (false, rest.takeWhile Char.isDigit)) with
  | (_, []) => none
  | (negative, digits) =>
    if negative then
      if digitsValue digits ≤ 2147483648 then some (-(digitsValue digits : Int)) else none
    else
      if digitsValue digits ≤ 2147483647 then some (digitsValue digits : Int) else none

/-! ## Application records -/

/-- Modelled from the spec: `pulse.hpp`, which declares `PulsePlaybackApp`, is
not among the sources. The spec's StreamRecord has a handle id, the originating
device id, a display name, a process id and an executable path; the code
fills exactly these five members. -/
structure PulsePlaybackApp where
  id : Nat
  sink : Nat
  name : String
  pid : Int
  application : String
deriving DecidableEq, Repr

/-- Modelled from the spec: `pulse.hpp`, which declares `PulseRecordingApp`, is
not among the sources; same five members, the device being a source. -/
structure PulseRecordingApp where
  id : Nat
  source : Nat
  name : String
  pid : Int
  application : String
deriving DecidableEq, Repr

/-- Modelled from the spec: the base class `PlaybackApp` is declared in a
header that is not among the sources. The spec knows one kind of playback
record, so `std::dynamic_pointer_cast<PulsePlaybackApp>` is the identity. A
`std::shared_ptr<PlaybackApp>` is an `Option PlaybackApp`, `none` being null. -/
abbrev PlaybackApp := PulsePlaybackApp

/-- Modelled from the spec: the base class `RecordingApp`, as `PlaybackApp`. -/
abbrev RecordingApp := PulseRecordingApp

/-- The fields of `pa_module_info` the backend reads, and the module's name.
`argument` may be a null pointer. -/
structure ModuleInfo where
  index : Nat
  name : String
  argument : Option String
deriving DecidableEq, Repr

/-! ## The server -/

/-- The requests the backend sends that this development follows. -/
inductive Request where
  | getSinkInputInfoList
  | getSourceOutputInfoList
  | moveSinkInputByName (idx : Nat) (sinkName : String)
  | moveSinkInputByIndex (idx : Nat) (sinkIdx : Nat)
  | moveSourceOutputByName (idx : Nat) (sourceName : String)
  | moveSourceOutputByIndex (idx : Nat) (sourceIdx : Nat)
  | getModuleInfoList
  | getServerInfo
  | loadModule (name : String) (argument : String)
  | unloadModule (idx : Nat)
deriving DecidableEq, Repr

/-- Environment: the state of the PulseAudio server as the backend sees it.
`permits` is the server's decision on a request (a move it does not permit is
reported to the callback with `success = 0`); `sinkByName` and `sourceByName`
resolve device names; `log` is the trace of requests received, oldest first.
`modules` are the loaded modules in the server's order; `serverInfo` is the
default source name of the `pa_server_info` handed to the callback, `none`
for a null `info`; `assignIndex` is the index the server answers a
load-module request with, 4294967295 (`PA_INVALID_INDEX`) when it does not
load the module. -/
structure Server where
  sinkInputs : List SinkInputInfo
  sourceOutputs : List SourceOutputInfo
  sinkByName : String → Option Nat
  sourceByName : String → Option Nat
  permits : Request → Bool
  log : List Request
  modules : List ModuleInfo := []
  serverInfo : Option String := none
  assignIndex : String → String → Nat := fun _ _ => 4294967295

/-- The device a move request ends on, when the server honours it: a by-name
move needs the name to resolve and the request to be permitted. -/
def Server.target (srv : Server) (r : Request) : Option Nat :=
  if srv.permits r then
    match r with
    | .moveSinkInputByName _ n => srv.sinkByName n
    | .moveSinkInputByIndex _ k => some k
    | .moveSourceOutputByName _ n => srv.sourceByName n
    | .moveSourceOutputByIndex _ k => some k
    | _ => none
  else none

/-- Whether the server honours a move request. -/
def Server.accepts (srv : Server) (r : Request) : Bool :=
  (srv.target r).isSome

/-- Attach every sink input with index `idx` to sink `k`. -/
def setSink (idx k : Nat) (i : SinkInputInfo) : SinkInputInfo :=
  if i.index = idx then { i with sink := k } else i

/-- Attach every source output with index `idx` to source `k`. -/
def setSource (idx k : Nat) (o : SourceOutputInfo) : SourceOutputInfo :=
  if o.index = idx then { o with source := k } else o

/-- Environment: the server receives a sink-input move. It records the
request; when it honours it, the stream keeps its index and is attached to the
target sink. The boolean is the `success` argument of the callback. -/
def Server.moveSinkInput (srv : Server) (r : Request) (idx : Nat) : Bool × Server :=
  match srv.target r with
  | some k =>
    (true, { srv with sinkInputs := srv.sinkInputs.map (setSink idx k), log := srv.log ++ [r] })
  | none => (false, { srv with log := srv.log ++ [r] })

/-- Environment: the server receives a source-output move, as `moveSinkInput`. -/
def Server.moveSourceOutput (srv : Server) (r : Request) (idx : Nat) : Bool × Server :=
  match srv.target r with
  | some k =>
    (true, { srv with sourceOutputs := srv.sourceOutputs.map (setSource idx k),
                      log := srv.log ++ [r] })
  | none => (false, { srv with log := srv.log ++ [r] })

/-- `pa_context_move_sink_input_by_name`. -/
def Server.moveSinkInputByName (srv : Server) (idx : Nat) (sinkName : String) : Bool × Server :=
  srv.moveSinkInput (.moveSinkInputByName idx sinkName) idx

/-- `pa_context_move_sink_input_by_index`. -/
def Server.moveSinkInputByIndex (srv : Server) (idx sinkIdx : Nat) : Bool × Server :=
  srv.moveSinkInput (.moveSinkInputByIndex idx sinkIdx) idx

/-- `pa_context_move_source_output_by_name`. -/
def Server.moveSourceOutputByName (srv : Server) (idx : Nat) (sourceName : String) :
    Bool × Server :=
  srv.moveSourceOutput (.moveSourceOutputByName idx sourceName) idx

/-- `pa_context_move_source_output_by_index`. -/
def Server.moveSourceOutputByIndex (srv : Server) (idx sourceIdx : Nat) : Bool × Server :=
  srv.moveSourceOutput (.moveSourceOutputByIndex idx sourceIdx) idx

/-- Environment: an info-list request calls the callback once per record, in
the server's order, and a last time with a null `info` (end of list). -/
def infoListCalls {α : Type} (records : List α) : List (Option α) :=
  records.map some ++ [none]

/-! ## The server's modules -/

/-- Split a string at every `sep`. -/
def splitOnChar (sep : Char) : List Char → List (List Char)
  | [] => [[]]
  | c :: cs =>
    if c = sep then [] :: splitOnChar sep cs
    else
      match splitOnChar sep cs with
      | [] => [[c]]
      | t :: ts => (c :: t) :: ts

/-- The `key=value` items of a module argument: the items stand between
blanks, the key ends at the first `=`. -/
def argumentItems (argument : String) : List (List Char × List Char) :=
  (splitOnChar ' ' argument.data).map fun item =>
    (item.takeWhile (fun c => c != '='), (item.dropWhile (fun c => c != '=')).drop 1)

/-- Environment: the devices a module creates. A `module-null-sink` creates
the sink its `sink_name` names, and with it the sink's monitor source. -/
def providedNames (m : ModuleInfo) : List (List Char) :=
  if m.name = "module-null-sink" then
    match m.argument with
    | none => []
    | some argument =>
      ((argumentItems argument).filter fun kv => kv.1 = "sink_name".data).flatMap
        fun kv => [kv.2, kv.2 ++ ".monitor".data]
  else []

/-- Environment: the devices a module is attached to, the values of its
`sink` and `source` items. -/
def usedNames (m : ModuleInfo) : List (List Char) :=
  match m.argument with
  | none => []
  | some argument =>
    ((argumentItems argument).filter fun kv =>
      kv.1 = "sink".data || kv.1 = "source".data).map fun kv => kv.2

/-- Environment: `m` references `r` when `m` is attached to a device that `r`
creates. -/
def references (m r : ModuleInfo) : Bool :=
  (usedNames m).any fun n => (providedNames r).contains n

/-- Environment: whether module `m` stays when the module with index `idx` is
unloaded from `modules`: it is not that module and references no module with
that index. -/
def survives (modules : List ModuleInfo) (idx : Nat) (m : ModuleInfo) : Bool :=
  !(decide (m.index = idx) || (modules.filter fun r => r.index = idx).any (references m))

/-- Environment: the server receives `pa_context_unload_module`. It records
the request and removes the modules with that index together with the
modules that reference one of them. -/
def Server.unloadModule (srv : Server) (idx : Nat) : Server :=
  { srv with
    modules := srv.modules.filter (survives srv.modules idx)
    log := srv.log ++ [.unloadModule idx] }

/-- Environment: the server receives `pa_context_load_module`. It records the
request and answers with `assignIndex`, as a 32-bit unsigned number; unless
the answer is `PA_INVALID_INDEX` the module is loaded under that index. -/
def Server.loadModule (srv : Server) (name argument : String) : Nat × Server :=
  let id := srv.assignIndex name argument % 4294967296
  if id = 4294967295 then (id, { srv with log := srv.log ++ [.loadModule name argument] })
  else
    (id, { srv with
      modules := srv.modules ++ [{ index := id, name := name, argument := some argument }]
      log := srv.log ++ [.loadModule name argument] })

/-! ## The backend object -/

/-- The member variables of `PulseAudio`. -/
structure PulseAudio where
  defaultSource : String
  nullSink : Nat
  loopBack : Nat
  passthrough : Nat
  passthroughSink : Nat
  passthroughLoopBack : Nat
  movedApplication : Option PulseRecordingApp
  movedPassthroughApplication : Option PulsePlaybackApp
deriving DecidableEq, Repr

/-- What a call can end in other than a return. -/
inductive Fault where
  | nullDereference
  | terminate
deriving DecidableEq, Repr

/-! ## Enumeration (`getPlaybackApps`, `getRecordingApps`) -/

/-- The callbacks of an info-list request, one after the other on the value
behind `userData`. A call that ends in a fault ends the process, and no later
call is made. -/
def callEach {α β : Type} (callback : β → Option α → Except Fault β) :
    List (Option α) → β → Except Fault β
  | [], userData => .ok userData
  | info :: rest, userData =>
    match callback userData info with
    | .error e => .error e
    | .ok userData => callEach callback rest userData

/-- The callback of `getPlaybackApps`, lines 182-194: `rtn` is the vector
behind `userData`. Lines 190-192 make a `std::string` from each pointer
`pa_proplist_gets` returns, without a check, and hand the process id to
`std::stoi`, whose exception nothing catches. -/
def playbackCallback (rtn : List PulsePlaybackApp) (info : Option SinkInputInfo) :
    Except Fault (List PulsePlaybackApp) :=
  match info with
  | none => .ok rtn
  | some info =>
    match info.driver with
    | none => .ok rtn
    | some driver =>
      if driver = "protocol-native.c" then
        match pa_proplist_gets info.proplist "application.name" with
        | none => .error .nullDereference
        | some name =>
          match pa_proplist_gets info.proplist "application.process.id" with
          | none => .error .nullDereference
          | some processId =>
            match stoi processId with
            | none => .error .terminate
            | some pid =>
              match pa_proplist_gets info.proplist "application.process.binary" with
              | none => .error .nullDereference
              | some application =>
                .ok (rtn ++ [{ id := info.index, sink := info.sink, name := name, pid := pid,
                               application := application }])
      else .ok rtn

/-- `PulseAudio::getPlaybackApps`, lines 177-199. -/
def getPlaybackApps (srv : Server) : Except Fault (List PulsePlaybackApp × Server) :=
  match callEach playbackCallback (infoListCalls srv.sinkInputs) [] with
  | .error e => .error e
  | .ok rtn => .ok (rtn, { srv with log := srv.log ++ [.getSinkInputInfoList] })

/-- The callback of `getRecordingApps`, lines 205-223, with the unchecked
reads of lines 218-220 as in `playbackCallback`. -/
def recordingCallback (rtn : List PulseRecordingApp) (info : Option SourceOutputInfo) :
    Except Fault (List PulseRecordingApp) :=
  match info with
  | none => .ok rtn
  | some info =>
    match info.driver with
    | none => .ok rtn
    | some driver =>
      if driver = "protocol-native.c" then
        if info.resampleMethod = some "peaks" then .ok rtn
        else
          match pa_proplist_gets info.proplist "application.name" with
          | none => .error .nullDereference
          | some name =>
            match pa_proplist_gets info.proplist "application.process.id" with
            | none => .error .nullDereference
            | some processId =>
              match stoi processId with
              | none => .error .terminate
              | some pid =>
                match pa_proplist_gets info.proplist "application.process.binary" with
                | none => .error .nullDereference
                | some application =>
                  .ok (rtn ++ [{ id := info.index, source := info.source, name := name,
                                 pid := pid, application := application }])
      else .ok rtn

/-- `PulseAudio::getRecordingApps`, lines 200-227. -/
def getRecordingApps (srv : Server) : Except Fault (List PulseRecordingApp × Server) :=
  match callEach recordingCallback (infoListCalls srv.sourceOutputs) [] with
  | .error e => .error e
  | .ok rtn => .ok (rtn, { srv with log := srv.log ++ [.getSourceOutputInfoList] })

/-! ## Passthrough (`passthroughFrom`, `stopPassthrough`) -/

/-- `PulseAudio::stopPassthrough`, lines 325-352. The `reset()` and the
`return success` stand in the body of the `for`, after the `if`: the loop
leaves in its first round, and with no round the function falls through to
`return true`. -/
def stopPassthrough (pa : PulseAudio) (srv : Server) :
    Except Fault (Bool × PulseAudio × Server) :=
  match pa.movedPassthroughApplication with
  | some moved =>
    match getPlaybackApps srv with
    | .error e => .error e
    | .ok (app :: _, srv1) =>
      let (success, srv2) :=
        if app.name = moved.name then srv1.moveSinkInputByIndex app.id moved.sink
        else (false, srv1)
      .ok (success, { pa with movedPassthroughApplication := none }, srv2)
    | .ok ([], srv1) => .ok (true, pa, srv1)
  | none => .ok (true, pa, srv)

/-- The `for` of `passthroughFrom`, lines 294-319: the boolean is false when
the loop left through `return false`. -/
def passthroughLoop (name : String) : List PulsePlaybackApp → Server → Bool × Server
  | [], srv => (true, srv)
  | playbackApp :: rest, srv =>
    if playbackApp.name = name then
      match srv.moveSinkInputByName playbackApp.id "soundux_sink_passthrough" with
      | (true, srv1) => passthroughLoop name rest srv1
      | (false, srv1) => (false, srv1)
    else passthroughLoop name rest srv

/-- The first condition of `passthroughFrom`, line 278:
`movedPassthroughApplication && movedPassthroughApplication->name == app->name`.
With a target set, `app->name` is read, whatever `app` is. -/
def alreadyMoved (pa : PulseAudio) (app : Option PlaybackApp) : Except Fault Bool :=
  match pa.movedPassthroughApplication with
  | none => .ok false
  | some moved =>
    match app with
    | none => .error .nullDereference
    | some app => .ok (decide (moved.name = app.name))

/-- `PulseAudio::passthroughFrom`, lines 276-323. -/
def passthroughFrom (app : Option PlaybackApp) (pa : PulseAudio) (srv : Server) :
    Except Fault (Bool × PulseAudio × Server) :=
  match alreadyMoved pa app with
  | .error e => .error e
  | .ok true => .ok (true, pa, srv)
  | .ok false =>
    match stopPassthrough pa srv with
    | .error e => .error e
    | .ok (_, pa1, srv1) =>
      match app with
      | none => .ok (false, pa1, srv1)
      | some app =>
        match getPlaybackApps srv1 with
        | .error e => .error e
        | .ok (apps, srv2) =>
          match passthroughLoop app.name apps srv2 with
          | (false, srv3) => .ok (false, pa1, srv3)
          | (true, srv3) => .ok (true, { pa1 with movedPassthroughApplication := some app }, srv3)

/-- `PulseAudio::isCurrentlyPassingThrough`, lines 471-474. -/
def isCurrentlyPassingThrough (pa : PulseAudio) : Bool :=
  pa.movedPassthroughApplication.isSome

/-! ## Sound input (`inputSoundTo`, `stopSoundInput`) -/

/-- The `for` of `stopSoundInput`, lines 403-426. `success` is the local of
that name: the callback clears it on a failed move and nothing sets it again. -/
def stopSoundInputLoop (moved : PulseRecordingApp) :
    List PulseRecordingApp → Bool → Server → Bool × Server
  | [], success, srv => (success, srv)
  | pulseApp :: rest, success, srv =>
    if pulseApp.name = moved.name then
      match srv.moveSourceOutputByIndex pulseApp.id moved.source with
      | (ok, srv1) => stopSoundInputLoop moved rest (success && ok) srv1
    else stopSoundInputLoop moved rest success srv

/-- `PulseAudio::stopSoundInput`, lines 398-431. -/
def stopSoundInput (pa : PulseAudio) (srv : Server) :
    Except Fault (Bool × PulseAudio × Server) :=
  match pa.movedApplication with
  | some moved =>
    match getRecordingApps srv with
    | .error e => .error e
    | .ok (apps, srv1) =>
      match stopSoundInputLoop moved apps true srv1 with
      | (success, srv2) => .ok (success, { pa with movedApplication := none }, srv2)
  | none => .ok (true, pa, srv)

/-- The `for` of `inputSoundTo`, lines 370-393: a failed move is logged and
the loop goes on. -/
def inputSoundLoop (name : String) : List PulseRecordingApp → Server → Server
  | [], srv => srv
  | pulseApp :: rest, srv =>
    if pulseApp.name = name then
      inputSoundLoop name rest (srv.moveSourceOutputByName pulseApp.id "soundux_sink.monitor").2
    else inputSoundLoop name rest srv

/-- `PulseAudio::inputSoundTo`, lines 353-397. -/
def inputSoundTo (app : Option RecordingApp) (pa : PulseAudio) (srv : Server) :
    Except Fault (Bool × PulseAudio × Server) :=
  match app with
  | none => .ok (false, pa, srv)
  | some app =>
    if (match pa.movedApplication with
        | some moved => decide (moved.name = app.name)
        | none => false) then .ok (true, pa, srv)
    else
      match stopSoundInput pa srv with
      | .error e => .error e
      | .ok (_, pa1, srv1) =>
        match getRecordingApps srv1 with
        | .error e => .error e
        | .ok (apps, srv2) =>
          .ok (true, { pa1 with movedApplication := some app },
            inputSoundLoop app.name apps srv2)

/-! ## Set-up and tear-down (`setup`, `destroy`, `unloadLeftOvers`) -/

/-- `std::string(info->argument).find("soundux") != std::string::npos`,
line 167: whether "soundux" occurs in the argument. -/
def findsSoundux (argument : String) : Bool :=
  decide ("soundux".data <:+: argument.data)

/-- The callback of `unloadLeftOvers`, lines 164-174. The unload is sent from
inside the callback and not awaited; the server takes its requests in the
order they are sent. -/
def unloadLeftOversCallback (srv : Server) (info : Option ModuleInfo) : Server :=
  match info with
  | none => srv
  | some info =>
    match info.argument with
    | none => srv
    | some argument =>
      if findsSoundux argument then srv.unloadModule info.index else srv

/-- `PulseAudio::unloadLeftOvers`, lines 160-176. The callback runs over the
module list as the server had it when it took the request. -/
def unloadLeftOvers (srv : Server) : Server :=
  (infoListCalls srv.modules).foldl unloadLeftOversCallback
    { srv with log := srv.log ++ [.getModuleInfoList] }

/-- `PulseAudio::fetchDefaultSource`, lines 148-159. -/
def fetchDefaultSource (pa : PulseAudio) (srv : Server) : PulseAudio × Server :=
  (match srv.serverInfo with
    | some name => { pa with defaultSource := name }
    | none => pa,
   { srv with log := srv.log ++ [.getServerInfo] })

/-- `static_cast<int>(id)` for a `std::uint32_t`. -/
def asInt (id : Nat) : Int :=
  if id % 4294967296 < 2147483648 then (id % 4294967296 : Nat)
  else ((id % 4294967296 : Nat) : Int) - 4294967296

/-- The callback of each `pa_context_load_module` in `setup`, lines 50-60 and
its four copies: `std::terminate()` on a negative id, else the id goes to the
member behind `userData`. -/
def loadModuleCallback (id : Nat) : Except Fault Nat :=
  if asInt id < 0 then .error .terminate else .ok id

/-- One `await(pa_context_load_module(...))` of `setup`: the id for the
member, or the fault together with the server as the process left it. -/
def loadModuleAwait (srv : Server) (name argument : String) :
    Except (Fault × Server) (Nat × Server) :=
  match srv.loadModule name argument with
  | (id, srv1) =>
    match loadModuleCallback id with
    | .error e => .error (e, srv1)
    | .ok id => .ok (id, srv1)

/-- `PulseAudio::fixPlaybackApps`, lines 457-460: logs a warning. -/
def fixPlaybackApps (_ : List PlaybackApp) : Unit := ()

/-- `PulseAudio::fixRecordingApps`, lines 461-464: logs a warning. -/
def fixRecordingApps (_ : List RecordingApp) : Unit := ()

/-- `PulseAudio::revertDefault`, lines 249-275: logs a warning. -/
def revertDefault (pa : PulseAudio) : Bool × PulseAudio := (true, pa)

/-- `PulseAudio::setup`, from line 41 on: lines 13-39 open the connection and
are taken to have reached `PA_CONTEXT_READY`. An error is a fault in a
callback, of a snapshot or of a load, with the server as the process left
it. -/
def setup (pa : PulseAudio) (srv : Server) : Except (Fault × Server) (PulseAudio × Server) :=
  match fetchDefaultSource pa (unloadLeftOvers srv) with
  | (pa, srv) =>
    match getPlaybackApps srv with
    | .error e => .error (e, { srv with log := srv.log ++ [.getSinkInputInfoList] })
    | .ok (playbackApps, srv) =>
      match getRecordingApps srv with
      | .error e => .error (e, { srv with log := srv.log ++ [.getSourceOutputInfoList] })
      | .ok (recordingApps, srv) =>
        match loadModuleAwait srv "module-null-sink"
          "sink_name=soundux_sink rate=44100 sink_properties=device.description=soundux_sink" with
        | .error e => .error e
        | .ok (id, srv) =>
          let pa := { pa with nullSink := id }
          match loadModuleAwait srv "module-loopback"
            ("rate=44100 source=" ++ pa.defaultSource
              ++ " sink=soundux_sink sink_dont_move=true source_dont_move=true") with
          | .error e => .error e
          | .ok (id, srv) =>
            let pa := { pa with loopBack := id }
            match loadModuleAwait srv "module-null-sink"
              "sink_name=soundux_sink_passthrough rate=44100 sink_properties=device.description=soundux_sink_passthrough" with
            | .error e => .error e
            | .ok (id, srv) =>
              let pa := { pa with passthrough := id }
              match loadModuleAwait srv "module-loopback"
                "source=soundux_sink_passthrough.monitor sink=soundux_sink source_dont_move=true" with
              | .error e => .error e
              | .ok (id, srv) =>
                let pa := { pa with passthroughSink := id }
                match loadModuleAwait srv "module-loopback"
                  "source=soundux_sink_passthrough.monitor source_dont_move=true" with
                | .error e => .error e
                | .ok (id, srv) =>
                  let pa := { pa with passthroughLoopBack := id }
                  let _ := fixPlaybackApps playbackApps
                  let _ := fixRecordingApps recordingApps
                  .ok (pa, srv)

/-- `PulseAudio::destroy`, lines 130-140. -/
def destroy (pa : PulseAudio) (srv : Server) : Except Fault (PulseAudio × Server) :=
  match revertDefault pa with
  | (_, pa) =>
    match stopSoundInput pa srv with
    | .error e => .error e
    | .ok (_, pa, srv) =>
      match stopPassthrough pa srv with
      | .error e => .error e
      | .ok (_, pa, srv) =>
        .ok (pa, ((srv.unloadModule pa.nullSink).unloadModule pa.loopBack).unloadModule
          pa.passthrough)

/-! ## The functions where the enumerations return -/

/-- A sink input that comes from a native client connection. -/
def nativeSinkInput (i : SinkInputInfo) : Bool :=
  decide (i.driver = some "protocol-native.c")

/-- The display name a property list gives, empty when it gives none. -/
def nameOf (proplist : List (String × String)) : String :=
  (pa_proplist_gets proplist "application.name").getD ""

/-- The process id a property list gives, 0 when it gives none that is an
`int`. -/
def pidOf (proplist : List (String × String)) : Int :=
  ((pa_proplist_gets proplist "application.process.id").bind stoi).getD 0

/-- The executable a property list gives, empty when it gives none. -/
def binaryOf (proplist : List (String × String)) : String :=
  (pa_proplist_gets proplist "application.process.binary").getD ""

/-- The playback record made from a sink input. -/
def playbackRecord (i : SinkInputInfo) : PulsePlaybackApp :=
  { id := i.index, sink := i.sink, name := nameOf i.proplist,
    pid := pidOf i.proplist, application := binaryOf i.proplist }

/-- A source output that comes from a native client connection and is no
"peaks" stream. -/
def capturingSourceOutput (o : SourceOutputInfo) : Bool :=
  decide (o.driver = some "protocol-native.c") && !decide (o.resampleMethod = some "peaks")

/-- The recording record made from a source output. -/
def recordingRecord (o : SourceOutputInfo) : PulseRecordingApp :=
  { id := o.index, source := o.source, name := nameOf o.proplist,
    pid := pidOf o.proplist, application := binaryOf o.proplist }

/-- A property list the callbacks can read: it has the three keys they ask
for, and `std::stoi` takes the process id. -/
def readableProps (proplist : List (String × String)) : Bool :=
  (pa_proplist_gets proplist "application.name").isSome
    && ((pa_proplist_gets proplist "application.process.id").bind stoi).isSome
    && (pa_proplist_gets proplist "application.process.binary").isSome

/-- Every sink input that `getPlaybackApps` makes a record of can be read. -/
def PlaybackReadable (srv : Server) : Prop :=
  ∀ i ∈ srv.sinkInputs, nativeSinkInput i = true → readableProps i.proplist = true

/-- Every source output that `getRecordingApps` makes a record of can be
read. -/
def RecordingReadable (srv : Server) : Prop :=
  ∀ o ∈ srv.sourceOutputs, capturingSourceOutput o = true → readableProps o.proplist = true

/-- The playback enumeration where it returns (`getPlaybackApps_readable`):
the records of the native sink inputs in the server's order, and the server
with the request in its trace. -/
def getPlaybackAppsPure (srv : Server) : List PulsePlaybackApp × Server :=
  ((srv.sinkInputs.filter nativeSinkInput).map playbackRecord,
   { srv with log := srv.log ++ [.getSinkInputInfoList] })

/-- The recording enumeration where it returns (`getRecordingApps_readable`),
as `getPlaybackAppsPure`. -/
def getRecordingAppsPure (srv : Server) : List PulseRecordingApp × Server :=
  ((srv.sourceOutputs.filter capturingSourceOutput).map recordingRecord,
   { srv with log := srv.log ++ [.getSourceOutputInfoList] })

/-- `stopPassthrough` where the enumeration returns
(`stopPassthrough_returns`). -/
def stopPassthroughPure (pa : PulseAudio) (srv : Server) : Bool × PulseAudio × Server :=
  match pa.movedPassthroughApplication with
  | some moved =>
    match getPlaybackAppsPure srv with
    | (app :: _, srv1) =>
      let (success, srv2) :=
        if app.name = moved.name then srv1.moveSinkInputByIndex app.id moved.sink
        else (false, srv1)
      (success, { pa with movedPassthroughApplication := none }, srv2)
    | ([], srv1) => (true, pa, srv1)
  | none => (true, pa, srv)

/-- `passthroughFrom` where the enumerations return
(`passthroughFrom_readable`): the one fault left is the read through a null
`app`. -/
def passthroughFromPure (app : Option PlaybackApp) (pa : PulseAudio) (srv : Server) :
    Except Fault (Bool × PulseAudio × Server) :=
  match alreadyMoved pa app with
  | .error e => .error e
  | .ok true => .ok (true, pa, srv)
  | .ok false =>
    match stopPassthroughPure pa srv with
    | (_, pa1, srv1) =>
      match app with
      | none => .ok (false, pa1, srv1)
      | some app =>
        match getPlaybackAppsPure srv1 with
        | (apps, srv2) =>
          match passthroughLoop app.name apps srv2 with
          | (false, srv3) => .ok (false, pa1, srv3)
          | (true, srv3) => .ok (true, { pa1 with movedPassthroughApplication := some app }, srv3)

/-- `stopSoundInput` where the enumeration returns
(`stopSoundInput_returns`). -/
def stopSoundInputPure (pa : PulseAudio) (srv : Server) : Bool × PulseAudio × Server :=
  match pa.movedApplication with
  | some moved =>
    match getRecordingAppsPure srv with
    | (apps, srv1) =>
      match stopSoundInputLoop moved apps true srv1 with
      | (success, srv2) => (success, { pa with movedApplication := none }, srv2)
  | none => (true, pa, srv)

/-- `inputSoundTo` where the enumerations return
(`inputSoundTo_readable`). -/
def inputSoundToPure (app : Option RecordingApp) (pa : PulseAudio) (srv : Server) :
    Bool × PulseAudio × Server :=
  match app with
  | none => (false, pa, srv)
  | some app =>
    if (match pa.movedApplication with
        | some moved => decide (moved.name = app.name)
        | none => false) then (true, pa, srv)
    else
      match stopSoundInputPure pa srv with
      | (_, pa1, srv1) =>
        match getRecordingAppsPure srv1 with
        | (apps, srv2) =>
          (true, { pa1 with movedApplication := some app }, inputSoundLoop app.name apps srv2)

/-- `setup` where the two snapshots return (`setup_of_snapshots`): an error is
`std::terminate()` in a load callback. -/
def setupPure (pa : PulseAudio) (srv : Server) : Except (Fault × Server) (PulseAudio × Server) :=
  match fetchDefaultSource pa (unloadLeftOvers srv) with
  | (pa, srv) =>
    match getPlaybackAppsPure srv with
    | (playbackApps, srv) =>
      match getRecordingAppsPure srv with
      | (recordingApps, srv) =>
        match loadModuleAwait srv "module-null-sink"
          "sink_name=soundux_sink rate=44100 sink_properties=device.description=soundux_sink" with
        | .error e => .error e
        | .ok (id, srv) =>
          let pa := { pa with nullSink := id }
          match loadModuleAwait srv "module-loopback"
            ("rate=44100 source=" ++ pa.defaultSource
              ++ " sink=soundux_sink sink_dont_move=true source_dont_move=true") with
          | .error e => .error e
          | .ok (id, srv) =>
            let pa := { pa with loopBack := id }
            match loadModuleAwait srv "module-null-sink"
              "sink_name=soundux_sink_passthrough rate=44100 sink_properties=device.description=soundux_sink_passthrough" with
            | .error e => .error e
            | .ok (id, srv) =>
              let pa := { pa with passthrough := id }
              match loadModuleAwait srv "module-loopback"
                "source=soundux_sink_passthrough.monitor sink=soundux_sink source_dont_move=true" with
              | .error e => .error e
              | .ok (id, srv) =>
                let pa := { pa with passthroughSink := id }
                match loadModuleAwait srv "module-loopback"
                  "source=soundux_sink_passthrough.monitor source_dont_move=true" with
                | .error e => .error e
                | .ok (id, srv) =>
                  let pa := { pa with passthroughLoopBack := id }
                  let _ := fixPlaybackApps playbackApps
                  let _ := fixRecordingApps recordingApps
                  .ok (pa, srv)

/-- `destroy` where the enumerations return (`destroy_returns`). -/
def destroyPure (pa : PulseAudio) (srv : Server) : PulseAudio × Server :=
  match revertDefault pa with
  | (_, pa) =>
    match stopSoundInputPure pa srv with
    | (_, pa, srv) =>
      match stopPassthroughPure pa srv with
      | (_, pa, srv) =>
        (pa, ((srv.unloadModule pa.nullSink).unloadModule pa.loopBack).unloadModule
          pa.passthrough)

/-! ## Specification-side vocabulary -/

/-- A module that `unloadLeftOvers` takes for a leftover: it has an argument
and "soundux" occurs in it. -/
def isLeftOver (m : ModuleInfo) : Bool :=
  match m.argument with
  | some argument => findsSoundux argument
  | none => false

/-- The unload requests in a trace: the module indices, oldest first. -/
def unloadsIn (log : List Request) : List Nat :=
  log.filterMap fun r =>
    match r with
    | .unloadModule idx => some idx
    | _ => none

/-- The load requests in a trace: module name and argument, oldest first. -/
def loadsIn (log : List Request) : List (String × String) :=
  log.filterMap fun r =>
    match r with
    | .loadModule name argument => some (name, argument)
    | _ => none

/-- The five load requests of `setup` as the specification lists them, for a
given default source: module name and argument. -/
def expectedLoads (defaultSource : String) : List (String × String) :=
  [("module-null-sink",
      "sink_name=soundux_sink rate=44100 sink_properties=device.description=soundux_sink"),
   ("module-loopback",
      "rate=44100 source=" ++ defaultSource
        ++ " sink=soundux_sink sink_dont_move=true source_dont_move=true"),
   ("module-null-sink",
      "sink_name=soundux_sink_passthrough rate=44100 sink_properties=device.description=soundux_sink_passthrough"),
   ("module-loopback",
      "source=soundux_sink_passthrough.monitor sink=soundux_sink source_dont_move=true"),
   ("module-loopback", "source=soundux_sink_passthrough.monitor source_dont_move=true")]

/-- The default source `setup` works with: the server's, when it hands out a
`pa_server_info`, else the member as it was. -/
def sourceForSetup (pa : PulseAudio) (srv : Server) : String :=
  match srv.serverInfo with
  | some name => name
  | none => pa.defaultSource

/-- The ids the server returns for the five load requests of `setup`, as
32-bit unsigned numbers. -/
def setupReplies (pa : PulseAudio) (srv : Server) : List Nat :=
  (expectedLoads (sourceForSetup pa srv)).map fun na => srv.assignIndex na.1 na.2 % 4294967296

/-- The module the server holds after it has answered a load request with
`id`. -/
def loadedModule (id : Nat) (na : String × String) : ModuleInfo :=
  { index := id, name := na.1, argument := some na.2 }

/-- `srv2` is `srv1` after requests that leave the modules alone: the same
modules, the same answers to load requests, the same unload and load requests
in the trace. -/
structure ModulesKept (srv1 srv2 : Server) : Prop where
  modules_eq : srv2.modules = srv1.modules
  assignIndex_eq : srv2.assignIndex = srv1.assignIndex
  unloads_eq : unloadsIn srv2.log = unloadsIn srv1.log
  loads_eq : loadsIn srv2.log = loadsIn srv1.log

/-- The position of the first id that is negative as an `int`, if any. -/
def firstNegative : List Nat → Option Nat
  | [] => none
  | id :: rest => if asInt id < 0 then some 0 else (firstNegative rest).map (· + 1)

/-- A run of `await(pa_context_load_module(...))` calls, each with the
callback of `setup`: the ids in order, or the fault of the first callback
that terminates. -/
def loadAll : Server → List (String × String) → Except (Fault × Server) (List Nat × Server)
  | srv, [] => .ok ([], srv)
  | srv, na :: rest =>
    match loadModuleAwait srv na.1 na.2 with
    | .error e => .error e
    | .ok (id, srv1) =>
      match loadAll srv1 rest with
      | .error e => .error e
      | .ok (ids, srv2) => .ok (id :: ids, srv2)

/-- The server when `setup` sends its first load request: after the cleanup,
the default-source query and the two snapshots. -/
def serverBeforeLoads (srv : Server) : Server :=
  { unloadLeftOvers srv with
    log := (unloadLeftOvers srv).log
      ++ [.getServerInfo, .getSinkInputInfoList, .getSourceOutputInfoList] }

/-- The server as `setup` leaves it, whether it returns or terminates. -/
def serverAfter : Except (Fault × Server) (PulseAudio × Server) → Server
  | .ok (_, srv) => srv
  | .error (_, srv) => srv

/-- The first load request of `setup`, for the main null sink. -/
def nullSinkLoad : String × String :=
  ("module-null-sink",
    "sink_name=soundux_sink rate=44100 sink_properties=device.description=soundux_sink")

/-- The second load request of `setup`, for the main loopback. -/
def loopBackLoad (defaultSource : String) : String × String :=
  ("module-loopback",
    "rate=44100 source=" ++ defaultSource
      ++ " sink=soundux_sink sink_dont_move=true source_dont_move=true")

/-- The third load request of `setup`, for the passthrough null sink. -/
def passthroughLoad : String × String :=
  ("module-null-sink",
    "sink_name=soundux_sink_passthrough rate=44100 sink_properties=device.description=soundux_sink_passthrough")

/-- The fourth load request of `setup`, the loopback from the passthrough
monitor into the main sink. -/
def passthroughSinkLoad : String × String :=
  ("module-loopback",
    "source=soundux_sink_passthrough.monitor sink=soundux_sink source_dont_move=true")

/-- The fifth load request of `setup`, the loopback of the passthrough
monitor. -/
def passthroughLoopBackLoad : String × String :=
  ("module-loopback", "source=soundux_sink_passthrough.monitor source_dont_move=true")

/-! ## Example states -/

/-- A playback stream of a music player, on sink 0. -/
def musicInput : SinkInputInfo :=
  { index := 1, sink := 0, driver := some "protocol-native.c",
    proplist := [("application.name", "Music"), ("application.process.id", "200"),
      ("application.process.binary", "mpv")] }

/-- A playback stream of a browser, on sink 0. -/
def browserInput : SinkInputInfo :=
  { index := 2, sink := 0, driver := some "protocol-native.c",
    proplist := [("application.name", "Browser"), ("application.process.id", "100"),
      ("application.process.binary", "firefox")] }

/-- A second playback stream of the browser, on sink 0. -/
def browserInput2 : SinkInputInfo :=
  { index := 3, sink := 0, driver := some "protocol-native.c",
    proplist := [("application.name", "Browser"), ("application.process.id", "100"),
      ("application.process.binary", "firefox")] }

/-- A recording stream of a chat program, on source 1. -/
def chatOutput : SourceOutputInfo :=
  { index := 8, source := 1, driver := some "protocol-native.c", resampleMethod := none,
    proplist := [("application.name", "Chat"), ("application.process.id", "300"),
      ("application.process.binary", "chat")] }

/-- A server that honours every request: the passthrough sink has index 5,
the monitor of the main sink is source 7. -/
def exampleServer : Server :=
  { sinkInputs := [musicInput, browserInput, browserInput2]
    sourceOutputs := [chatOutput]
    sinkByName := fun n =>
      if n = "soundux_sink_passthrough" then some 5
      else if n = "soundux_sink" then some 4 else none
    sourceByName := fun n => if n = "soundux_sink.monitor" then some 7 else none
    permits := fun _ => true
    log := [] }

/-- The same server, except that it refuses every sink-input move by name. -/
def refusingServer : Server :=
  { exampleServer with
    permits := fun r =>
      match r with
      | .moveSinkInputByName _ _ => false
      | .moveSourceOutputByName _ _ => false
      | _ => true }

/-- A server with the music player enumerated first and one browser stream
after it. -/
def twoStreamServer : Server :=
  { exampleServer with sinkInputs := [musicInput, browserInput] }

/-- The same server with no stream at all. -/
def silentServer : Server :=
  { exampleServer with sinkInputs := [], sourceOutputs := [] }

/-- The record of the browser as `getPlaybackApps` makes it. -/
def browserApp : PulsePlaybackApp :=
  { id := 2, sink := 0, name := "Browser", pid := 100, application := "firefox" }

/-- The record of the music player as `getPlaybackApps` makes it. -/
def musicApp : PulsePlaybackApp :=
  { id := 1, sink := 0, name := "Music", pid := 200, application := "mpv" }

/-- The record of the chat program as `getRecordingApps` makes it. -/
def chatApp : PulseRecordingApp :=
  { id := 8, source := 1, name := "Chat", pid := 300, application := "chat" }

/-- The backend after `setup`, with no redirection. -/
def idleAudio : PulseAudio :=
  { defaultSource := "mic", nullSink := 20, loopBack := 21, passthrough := 22,
    passthroughSink := 23, passthroughLoopBack := 24, movedApplication := none,
    movedPassthroughApplication := none }

/-- The backend with the browser as passthrough target. -/
def browserAudio : PulseAudio :=
  { idleAudio with movedPassthroughApplication := some browserApp }

/-- The backend with the chat program as injection target, recorded on
source 1. -/
def chatAudio : PulseAudio :=
  { idleAudio with movedApplication := some chatApp }

/-- The example server with the chat program's stream on source 7. -/
def movedChatServer : Server :=
  { exampleServer with sourceOutputs := [{ chatOutput with source := 7 }] }

/-- The record of the chat program as `getRecordingApps` makes it on
`movedChatServer`. -/
def movedChatApp : PulseRecordingApp :=
  { id := 8, source := 7, name := "Chat", pid := 300, application := "chat" }

/-- A playback stream of a native client that has set no
"application.name". -/
def namelessInput : SinkInputInfo :=
  { index := 4, sink := 0, driver := some "protocol-native.c",
    proplist := [("application.process.id", "400"), ("application.process.binary", "aplay")] }

/-- A recording stream of a native client whose "application.process.id" is
one more than the greatest `int`. -/
def bigPidOutput : SourceOutputInfo :=
  { index := 9, source := 1, driver := some "protocol-native.c", resampleMethod := none,
    proplist := [("application.name", "Recorder"), ("application.process.id", "2147483648"),
      ("application.process.binary", "arecord")] }

/-- The example server with the music player and the nameless stream. -/
def namelessServer : Server :=
  { exampleServer with sinkInputs := [musicInput, namelessInput] }

/-- The example server with the chat program and the stream of process
2147483648. -/
def bigPidServer : Server :=
  { exampleServer with sourceOutputs := [chatOutput, bigPidOutput] }

/-! ## The loop of `passthroughFrom`, on keys -/

/-- What the loop of `passthroughFrom` does, read off the keys of the
enumeration: whether it runs to its end, and the indices it moves before it
leaves. `acc` says which indices the server lets move. -/
def loopIds (acc : Nat → Bool) (name : String) : List (Nat × String) → Bool × List Nat
  | [] => (true, [])
  | (i, n) :: rest =>
    if n = name then
      if acc i then ((loopIds acc name rest).1, i :: (loopIds acc name rest).2)
      else (false, [])
    else loopIds acc name rest

/-- Attach every sink input whose index is in `ids` to sink `k`. -/
def setSinkIn (ids : List Nat) (k : Nat) (x : SinkInputInfo) : SinkInputInfo :=
  if x.index ∈ ids then { x with sink := k } else x

/-- A module of the sound card, loaded before the backend starts. -/
def alsaCard : ModuleInfo :=
  { index := 1, name := "module-alsa-card", argument := some "device_id=0 name=pci" }

/-- A module without an argument. -/
def nativeProtocol : ModuleInfo :=
  { index := 2, name := "module-native-protocol-unix", argument := none }

/-- A null sink that an earlier run of the backend left behind. -/
def leftoverSink : ModuleInfo :=
  { index := 3, name := "module-null-sink",
    argument := some "sink_name=soundux_sink rate=44100 sink_properties=device.description=soundux_sink" }

/-- Answers to load requests: 10 to 14 for the five modules of `setup`, the
main loopback for whatever default source. -/
def exampleAssign (name argument : String) : Nat :=
  if (name, argument) = nullSinkLoad then 10
  else if (name, argument) = passthroughLoad then 12
  else if (name, argument) = passthroughSinkLoad then 13
  else if (name, argument) = passthroughLoopBackLoad then 14
  else if name = "module-loopback" then 11
  else 4294967295

/-- A server with no trace of the backend: two modules, default source
"alsa_input.pci". -/
def cleanServer : Server :=
  { exampleServer with
    modules := [alsaCard, nativeProtocol]
    serverInfo := some "alsa_input.pci"
    assignIndex := exampleAssign }

/-- A server on which an earlier run of the backend has left its null sink. -/
def crashedServer : Server :=
  { cleanServer with modules := [alsaCard, leftoverSink] }

/-- What `setup` returns on `crashedServer`. -/
def crashedSetup : PulseAudio × Server :=
  match setup idleAudio crashedServer with
  | .ok result => result
  | .error _ => (idleAudio, crashedServer)

/-- What `setup` returns on `cleanServer`. -/
def cleanSetup : PulseAudio × Server :=
  match setup idleAudio cleanServer with
  | .ok result => result
  | .error _ => (idleAudio, cleanServer)

/-! ## Playback streams up to their sink -/

/-- The index and name of every playback record the server would enumerate. -/
def playbackKeys (l : List SinkInputInfo) : List (Nat × String) :=
  (l.filter nativeSinkInput).map fun i => (i.index, nameOf i.proplist)

/-- `srv2` is `srv1` after sink-input requests only: the same decisions, the
same playback streams up to the sink each is attached to, the same source
outputs. -/
structure SinkStep (srv1 srv2 : Server) : Prop where
  target_eq : ∀ r, srv2.target r = srv1.target r
  sinkByName_eq : srv2.sinkByName = srv1.sinkByName
  keys_eq : playbackKeys srv2.sinkInputs = playbackKeys srv1.sinkInputs
  sourceOutputs_eq : srv2.sourceOutputs = srv1.sourceOutputs
  readable : PlaybackReadable srv1 → PlaybackReadable srv2

/-! ## Source outputs up to their source -/

/-- A source output with its source forgotten. -/
def eraseSource (o : SourceOutputInfo) : SourceOutputInfo :=
  { o with source := 0 }

/-- Attach every source output whose index is in `ids` to source `k`. -/
def setSourceIn (ids : List Nat) (k : Nat) (o : SourceOutputInfo) : SourceOutputInfo :=
  if o.index ∈ ids then { o with source := k } else o

/-- `srv2` is `srv1` after source-output requests only: the same decisions,
the same recording streams up to the source each is attached to, the same
sink inputs. -/
structure SourceStep (srv1 srv2 : Server) : Prop where
  target_eq : ∀ r, srv2.target r = srv1.target r
  erased_eq : srv2.sourceOutputs.map eraseSource = srv1.sourceOutputs.map eraseSource
  sinkInputs_eq : srv2.sinkInputs = srv1.sinkInputs

/-! ## Enumeration lemmas -/

theorem getPlaybackAppsPure_fst (srv : Server) :
    (getPlaybackAppsPure srv).1 = (srv.sinkInputs.filter nativeSinkInput).map playbackRecord :=
  rfl

theorem getRecordingAppsPure_fst (srv : Server) :
    (getRecordingAppsPure srv).1
      = (srv.sourceOutputs.filter capturingSourceOutput).map recordingRecord :=
  rfl

/-! ## The enumerations return on what can be read, and only there -/

theorem playbackCallback_skip (rtn : List PulsePlaybackApp) (i : SinkInputInfo)
    (hn : nativeSinkInput i = false) : playbackCallback rtn (some i) = .ok rtn := by
  cases hd : i.driver with
  | none => simp [playbackCallback, hd]
  | some d =>
    have : ¬ d = "protocol-native.c" := by
      intro h; simp [nativeSinkInput, hd, h] at hn
    simp [playbackCallback, hd, this]

theorem playbackCallback_record (rtn : List PulsePlaybackApp) (i : SinkInputInfo)
    (hn : nativeSinkInput i = true) (hr : readableProps i.proplist = true) :
    playbackCallback rtn (some i) = .ok (rtn ++ [playbackRecord i]) := by
  have hd : i.driver = some "protocol-native.c" := by simpa [nativeSinkInput] using hn
  unfold readableProps at hr
  cases h1 : pa_proplist_gets i.proplist "application.name" with
  | none => simp [h1] at hr
  | some name =>
    cases h2 : pa_proplist_gets i.proplist "application.process.id" with
    | none => simp [h2] at hr
    | some processId =>
      cases h3 : stoi processId with
      | none => simp [h2, h3] at hr
      | some pid =>
        cases h4 : pa_proplist_gets i.proplist "application.process.binary" with
        | none => simp [h4] at hr
        | some application =>
          simp [playbackCallback, playbackRecord, nameOf, pidOf, binaryOf, hd, h1, h2, h3, h4]

theorem playbackCallback_fault (rtn : List PulsePlaybackApp) (i : SinkInputInfo)
    (hn : nativeSinkInput i = true) (hr : readableProps i.proplist = false) :
    ∃ e, playbackCallback rtn (some i) = .error e := by
  have hd : i.driver = some "protocol-native.c" := by simpa [nativeSinkInput] using hn
  unfold readableProps at hr
  cases h1 : pa_proplist_gets i.proplist "application.name" with
  | none => exact ⟨.nullDereference, by simp [playbackCallback, hd, h1]⟩
  | some name =>
    cases h2 : pa_proplist_gets i.proplist "application.process.id" with
    | none => exact ⟨.nullDereference, by simp [playbackCallback, hd, h1, h2]⟩
    | some processId =>
      cases h3 : stoi processId with
      | none => exact ⟨.terminate, by simp [playbackCallback, hd, h1, h2, h3]⟩
      | some pid =>
        cases h4 : pa_proplist_gets i.proplist "application.process.binary" with
        | none => exact ⟨.nullDereference, by simp [playbackCallback, hd, h1, h2, h3, h4]⟩
        | some application => simp [h1, h2, h3, h4] at hr

theorem callEach_playback (l : List SinkInputInfo) (rest : List (Option SinkInputInfo))
    (rtn : List PulsePlaybackApp)
    (h : ∀ i ∈ l, nativeSinkInput i = true → readableProps i.proplist = true) :
    callEach playbackCallback (l.map some ++ rest) rtn
      = callEach playbackCallback rest (rtn ++ (l.filter nativeSinkInput).map playbackRecord) := by
  induction l generalizing rtn with
  | nil => simp
  | cons i l ih =>
    have ih1 := fun rtn1 => ih rtn1 (fun j hj => h j (List.mem_cons_of_mem _ hj))
    cases hn : nativeSinkInput i with
    | false =>
      simp only [List.map_cons, List.cons_append, callEach, playbackCallback_skip rtn i hn]
      refine (ih1 _).trans ?_
      simp [List.filter_cons, hn]
    | true =>
      have hr := h i (List.mem_cons_self _ _) hn
      simp only [List.map_cons, List.cons_append, callEach, playbackCallback_record rtn i hn hr]
      refine (ih1 _).trans ?_
      simp [List.filter_cons, hn]

theorem callEach_playback_fault (l : List SinkInputInfo) (rest : List (Option SinkInputInfo))
    (rtn : List PulsePlaybackApp)
    (h : ∃ i ∈ l, nativeSinkInput i = true ∧ readableProps i.proplist = false) :
    ∃ e, callEach playbackCallback (l.map some ++ rest) rtn = .error e := by
  induction l generalizing rtn with
  | nil => obtain ⟨i, hi, _⟩ := h; cases hi
  | cons i l ih =>
    cases hn : nativeSinkInput i with
    | false =>
      simp only [List.map_cons, List.cons_append, callEach, playbackCallback_skip rtn i hn]
      apply ih
      obtain ⟨j, hj, hjn, hjr⟩ := h
      rcases List.mem_cons.mp hj with rfl | hj
      · rw [hn] at hjn; cases hjn
      · exact ⟨j, hj, hjn, hjr⟩
    | true =>
      cases hr : readableProps i.proplist with
      | false =>
        obtain ⟨e, he⟩ := playbackCallback_fault rtn i hn hr
        exact ⟨e, by simp only [List.map_cons, List.cons_append, callEach, he]⟩
      | true =>
        simp only [List.map_cons, List.cons_append, callEach,
          playbackCallback_record rtn i hn hr]
        apply ih
        obtain ⟨j, hj, hjn, hjr⟩ := h
        rcases List.mem_cons.mp hj with rfl | hj
        · rw [hr] at hjr; cases hjr
        · exact ⟨j, hj, hjn, hjr⟩

/-- On a server whose playback records can be read `getPlaybackApps` returns,
and what it returns is `getPlaybackAppsPure`. -/
theorem getPlaybackApps_readable (srv : Server) (h : PlaybackReadable srv) :
    getPlaybackApps srv = .ok (getPlaybackAppsPure srv) := by
  unfold getPlaybackApps infoListCalls
  rw [callEach_playback srv.sinkInputs [none] [] h]
  simp [callEach, playbackCallback, getPlaybackAppsPure]

theorem getPlaybackApps_unreadable (srv : Server) (h : ¬ PlaybackReadable srv) :
    ∃ e, getPlaybackApps srv = .error e := by
  have hex : ∃ i ∈ srv.sinkInputs,
      nativeSinkInput i = true ∧ readableProps i.proplist = false := by
    unfold PlaybackReadable at h
    push_neg at h
    obtain ⟨i, hi, hn, hr⟩ := h
    exact ⟨i, hi, hn, by simpa using hr⟩
  obtain ⟨e, he⟩ := callEach_playback_fault srv.sinkInputs [none] [] hex
  exact ⟨e, by unfold getPlaybackApps infoListCalls; rw [he]⟩

/-- Where `getPlaybackApps` returns, the records can be read and it returns
`getPlaybackAppsPure`. -/
theorem getPlaybackApps_ok {srv : Server} {r : List PulsePlaybackApp × Server}
    (h : getPlaybackApps srv = .ok r) : PlaybackReadable srv ∧ r = getPlaybackAppsPure srv := by
  by_cases hr : PlaybackReadable srv
  · rw [getPlaybackApps_readable srv hr] at h
    exact ⟨hr, (Except.ok.inj h).symm⟩
  · obtain ⟨e, he⟩ := getPlaybackApps_unreadable srv hr
    rw [he] at h
    cases h

theorem recordingCallback_skip (rtn : List PulseRecordingApp) (o : SourceOutputInfo)
    (hn : capturingSourceOutput o = false) : recordingCallback rtn (some o) = .ok rtn := by
  cases hd : o.driver with
  | none => simp [recordingCallback, hd]
  | some d =>
    by_cases h : d = "protocol-native.c"
    · by_cases hp : o.resampleMethod = some "peaks"
      · simp [recordingCallback, hd, h, hp]
      · simp [capturingSourceOutput, hd, h, hp] at hn
    · simp [recordingCallback, hd, h]

theorem recordingCallback_record (rtn : List PulseRecordingApp) (o : SourceOutputInfo)
    (hn : capturingSourceOutput o = true) (hr : readableProps o.proplist = true) :
    recordingCallback rtn (some o) = .ok (rtn ++ [recordingRecord o]) := by
  have hd : o.driver = some "protocol-native.c" ∧ ¬ o.resampleMethod = some "peaks" := by
    simpa [capturingSourceOutput] using hn
  unfold readableProps at hr
  cases h1 : pa_proplist_gets o.proplist "application.name" with
  | none => simp [h1] at hr
  | some name =>
    cases h2 : pa_proplist_gets o.proplist "application.process.id" with
    | none => simp [h2] at hr
    | some processId =>
      cases h3 : stoi processId with
      | none => simp [h2, h3] at hr
      | some pid =>
        cases h4 : pa_proplist_gets o.proplist "application.process.binary" with
        | none => simp [h4] at hr
        | some application =>
          simp [recordingCallback, recordingRecord, nameOf, pidOf, binaryOf, hd.1, hd.2, h1, h2, h3, h4]

theorem recordingCallback_fault (rtn : List PulseRecordingApp) (o : SourceOutputInfo)
    (hn : capturingSourceOutput o = true) (hr : readableProps o.proplist = false) :
    ∃ e, recordingCallback rtn (some o) = .error e := by
  have hd : o.driver = some "protocol-native.c" ∧ ¬ o.resampleMethod = some "peaks" := by
    simpa [capturingSourceOutput] using hn
  unfold readableProps at hr
  cases h1 : pa_proplist_gets o.proplist "application.name" with
  | none => exact ⟨.nullDereference, by simp [recordingCallback, hd.1, hd.2, h1]⟩
  | some name =>
    cases h2 : pa_proplist_gets o.proplist "application.process.id" with
    | none => exact ⟨.nullDereference, by simp [recordingCallback, hd.1, hd.2, h1, h2]⟩
    | some processId =>
      cases h3 : stoi processId with
      | none => exact ⟨.terminate, by simp [recordingCallback, hd.1, hd.2, h1, h2, h3]⟩
      | some pid =>
        cases h4 : pa_proplist_gets o.proplist "application.process.binary" with
        | none => exact ⟨.nullDereference, by simp [recordingCallback, hd.1, hd.2, h1, h2, h3, h4]⟩
        | some application => simp [h1, h2, h3, h4] at hr

theorem callEach_recording (l : List SourceOutputInfo) (rest : List (Option SourceOutputInfo))
    (rtn : List PulseRecordingApp)
    (h : ∀ o ∈ l, capturingSourceOutput o = true → readableProps o.proplist = true) :
    callEach recordingCallback (l.map some ++ rest) rtn
      = callEach recordingCallback rest
          (rtn ++ (l.filter capturingSourceOutput).map recordingRecord) := by
  induction l generalizing rtn with
  | nil => simp
  | cons o l ih =>
    have ih1 := fun rtn1 => ih rtn1 (fun j hj => h j (List.mem_cons_of_mem _ hj))
    cases hn : capturingSourceOutput o with
    | false =>
      simp only [List.map_cons, List.cons_append, callEach, recordingCallback_skip rtn o hn]
      refine (ih1 _).trans ?_
      simp [List.filter_cons, hn]
    | true =>
      have hr := h o (List.mem_cons_self _ _) hn
      simp only [List.map_cons, List.cons_append, callEach,
        recordingCallback_record rtn o hn hr]
      refine (ih1 _).trans ?_
      simp [List.filter_cons, hn]

theorem callEach_recording_fault (l : List SourceOutputInfo)
    (rest : List (Option SourceOutputInfo)) (rtn : List PulseRecordingApp)
    (h : ∃ o ∈ l, capturingSourceOutput o = true ∧ readableProps o.proplist = false) :
    ∃ e, callEach recordingCallback (l.map some ++ rest) rtn = .error e := by
  induction l generalizing rtn with
  | nil => obtain ⟨o, ho, _⟩ := h; cases ho
  | cons o l ih =>
    cases hn : capturingSourceOutput o with
    | false =>
      simp only [List.map_cons, List.cons_append, callEach, recordingCallback_skip rtn o hn]
      apply ih
      obtain ⟨j, hj, hjn, hjr⟩ := h
      rcases List.mem_cons.mp hj with rfl | hj
      · rw [hn] at hjn; cases hjn
      · exact ⟨j, hj, hjn, hjr⟩
    | true =>
      cases hr : readableProps o.proplist with
      | false =>
        obtain ⟨e, he⟩ := recordingCallback_fault rtn o hn hr
        exact ⟨e, by simp only [List.map_cons, List.cons_append, callEach, he]⟩
      | true =>
        simp only [List.map_cons, List.cons_append, callEach,
          recordingCallback_record rtn o hn hr]
        apply ih
        obtain ⟨j, hj, hjn, hjr⟩ := h
        rcases List.mem_cons.mp hj with rfl | hj
        · rw [hr] at hjr; cases hjr
        · exact ⟨j, hj, hjn, hjr⟩

/-- On a server whose recording records can be read `getRecordingApps`
returns, and what it returns is `getRecordingAppsPure`. -/
theorem getRecordingApps_readable (srv : Server) (h : RecordingReadable srv) :
    getRecordingApps srv = .ok (getRecordingAppsPure srv) := by
  unfold getRecordingApps infoListCalls
  rw [callEach_recording srv.sourceOutputs [none] [] h]
  simp [callEach, recordingCallback, getRecordingAppsPure]

theorem getRecordingApps_unreadable (srv : Server) (h : ¬ RecordingReadable srv) :
    ∃ e, getRecordingApps srv = .error e := by
  have hex : ∃ o ∈ srv.sourceOutputs,
      capturingSourceOutput o = true ∧ readableProps o.proplist = false := by
    unfold RecordingReadable at h
    push_neg at h
    obtain ⟨o, ho, hn, hr⟩ := h
    exact ⟨o, ho, hn, by simpa using hr⟩
  obtain ⟨e, he⟩ := callEach_recording_fault srv.sourceOutputs [none] [] hex
  exact ⟨e, by unfold getRecordingApps infoListCalls; rw [he]⟩

/-- Where `getRecordingApps` returns, the records can be read and it returns
`getRecordingAppsPure`. -/
theorem getRecordingApps_ok {srv : Server} {r : List PulseRecordingApp × Server}
    (h : getRecordingApps srv = .ok r) :
    RecordingReadable srv ∧ r = getRecordingAppsPure srv := by
  by_cases hr : RecordingReadable srv
  · rw [getRecordingApps_readable srv hr] at h
    exact ⟨hr, (Except.ok.inj h).symm⟩
  · obtain ⟨e, he⟩ := getRecordingApps_unreadable srv hr
    rw [he] at h
    cases h

/-! ## The server under sink-input requests -/

theorem SinkStep.same (srv : Server) : SinkStep srv srv :=
  ⟨fun _ => rfl, rfl, rfl, rfl, fun h => h⟩

theorem SinkStep.andThen {a b c : Server} (h1 : SinkStep a b) (h2 : SinkStep b c) :
    SinkStep a c :=
  ⟨fun r => (h2.target_eq r).trans (h1.target_eq r),
    h2.sinkByName_eq.trans h1.sinkByName_eq, h2.keys_eq.trans h1.keys_eq,
    h2.sourceOutputs_eq.trans h1.sourceOutputs_eq, fun h => h2.readable (h1.readable h)⟩

theorem SinkStep.sameAccepts {a b : Server} (h : SinkStep a b) (r : Request) :
    b.accepts r = a.accepts r := by
  simp [Server.accepts, h.target_eq]

theorem playbackKeys_map_setSink (idx k : Nat) (l : List SinkInputInfo) :
    playbackKeys (l.map (setSink idx k)) = playbackKeys l := by
  induction l with
  | nil => rfl
  | cons i l ih =>
    have hn : nativeSinkInput (setSink idx k i) = nativeSinkInput i := by
      unfold setSink nativeSinkInput; split <;> rfl
    have hi : (setSink idx k i).index = i.index := by unfold setSink; split <;> rfl
    have ha : nameOf (setSink idx k i).proplist = nameOf i.proplist := by
      unfold setSink; split <;> rfl
    simp only [playbackKeys] at ih ⊢
    rw [List.map_cons, List.filter_cons, List.filter_cons, hn]
    cases nativeSinkInput i <;> simp [ih, hi, ha]

theorem moveSinkInput_fst (srv : Server) (r : Request) (idx : Nat) :
    (srv.moveSinkInput r idx).1 = srv.accepts r := by
  unfold Server.moveSinkInput Server.accepts
  cases srv.target r <;> rfl

theorem moveSinkInput_step (srv : Server) (r : Request) (idx : Nat) :
    SinkStep srv (srv.moveSinkInput r idx).2 := by
  unfold Server.moveSinkInput
  cases h : srv.target r with
  | none => exact ⟨fun _ => rfl, rfl, rfl, rfl, fun h => h⟩
  | some k =>
    refine ⟨fun _ => rfl, rfl, playbackKeys_map_setSink idx k _, rfl, ?_⟩
    intro h i hi hn
    obtain ⟨i0, hi0, rfl⟩ := List.mem_map.mp hi
    have h1 : nativeSinkInput (setSink idx k i0) = nativeSinkInput i0 := by
      unfold setSink nativeSinkInput; split <;> rfl
    have h2 : (setSink idx k i0).proplist = i0.proplist := by
      unfold setSink; split <;> rfl
    rw [h2]
    exact h i0 hi0 (h1 ▸ hn)

theorem getPlaybackAppsPure_step (srv : Server) : SinkStep srv (getPlaybackAppsPure srv).2 :=
  ⟨fun _ => rfl, rfl, rfl, rfl, fun h => h⟩

theorem getPlaybackAppsPure_keys (srv : Server) :
    (getPlaybackAppsPure srv).1.map (fun a => (a.id, a.name)) = playbackKeys srv.sinkInputs := by
  rw [getPlaybackAppsPure_fst]
  simp [playbackKeys, playbackRecord, Function.comp_def]

theorem stopPassthroughPure_step (pa : PulseAudio) (srv : Server) :
    SinkStep srv (stopPassthroughPure pa srv).2.2 := by
  unfold stopPassthroughPure
  cases pa.movedPassthroughApplication with
  | none => exact SinkStep.same srv
  | some moved =>
    cases hl : (getPlaybackAppsPure srv).1 with
    | nil =>
      have : getPlaybackAppsPure srv = ([], (getPlaybackAppsPure srv).2) := by rw [← hl]
      rw [this]
      exact getPlaybackAppsPure_step srv
    | cons app rest =>
      have : getPlaybackAppsPure srv = (app :: rest, (getPlaybackAppsPure srv).2) := by rw [← hl]
      rw [this]
      by_cases hn : app.name = moved.name
      · simp only [hn, if_true]
        exact (getPlaybackAppsPure_step srv).andThen (moveSinkInput_step _ _ _)
      · simp only [hn, if_false]
        exact getPlaybackAppsPure_step srv

/-- The target after `stopPassthrough`: kept when there was none or when the
server enumerates no playback stream, cleared otherwise. -/
theorem stopPassthroughPure_moved (pa : PulseAudio) (srv : Server) :
    (stopPassthroughPure pa srv).2.1
      = if (getPlaybackAppsPure srv).1 = [] then pa
        else { pa with movedPassthroughApplication := none } := by
  unfold stopPassthroughPure
  cases hm : pa.movedPassthroughApplication with
  | none =>
    have hpa : { pa with movedPassthroughApplication := none } = pa := by
      cases pa; simp_all
    simp only [hpa, ite_self]
  | some moved =>
    cases hl : (getPlaybackAppsPure srv).1 with
    | nil =>
      have : getPlaybackAppsPure srv = ([], (getPlaybackAppsPure srv).2) := by rw [← hl]
      rw [this]; simp
    | cons app rest =>
      have : getPlaybackAppsPure srv = (app :: rest, (getPlaybackAppsPure srv).2) := by rw [← hl]
      rw [this]; simp

theorem alreadyMoved_new (app : PlaybackApp) (pa : PulseAudio)
    (hnew : ∀ t, pa.movedPassthroughApplication = some t → t.name ≠ app.name) :
    alreadyMoved pa (some app) = .ok false := by
  unfold alreadyMoved
  cases hm : pa.movedPassthroughApplication with
  | none => rfl
  | some t => simp [hnew t hm]

/-- With a target that is not already set, `passthroughFrom` is the revert,
the enumeration and the loop, one after the other. -/
theorem passthroughFromPure_new (app : PlaybackApp) (pa : PulseAudio) (srv : Server)
    (hnew : ∀ t, pa.movedPassthroughApplication = some t → t.name ≠ app.name) :
    passthroughFromPure (some app) pa srv
      = .ok (
          (passthroughLoop app.name (getPlaybackAppsPure (stopPassthroughPure pa srv).2.2).1
              (getPlaybackAppsPure (stopPassthroughPure pa srv).2.2).2).1,
          (if (passthroughLoop app.name (getPlaybackAppsPure (stopPassthroughPure pa srv).2.2).1
                (getPlaybackAppsPure (stopPassthroughPure pa srv).2.2).2).1
            then { (stopPassthroughPure pa srv).2.1 with movedPassthroughApplication := some app }
            else (stopPassthroughPure pa srv).2.1),
          (passthroughLoop app.name (getPlaybackAppsPure (stopPassthroughPure pa srv).2.2).1
              (getPlaybackAppsPure (stopPassthroughPure pa srv).2.2).2).2) := by
  unfold passthroughFromPure
  rw [alreadyMoved_new app pa hnew]
  rcases stopPassthroughPure pa srv with ⟨b, pa1, srv1⟩
  rcases hl : passthroughLoop app.name (getPlaybackAppsPure srv1).1 (getPlaybackAppsPure srv1).2
    with ⟨ok, srv3⟩
  cases ok <;> simp [hl]

/-- The enumeration after the revert lists the streams of the one before. -/
theorem keys_after_stop (pa : PulseAudio) (srv : Server) :
    (getPlaybackAppsPure (stopPassthroughPure pa srv).2.2).1.map (fun a => (a.id, a.name))
      = (getPlaybackAppsPure srv).1.map (fun a => (a.id, a.name)) := by
  rw [getPlaybackAppsPure_keys, getPlaybackAppsPure_keys, (stopPassthroughPure_step pa srv).keys_eq]

/-! ## The loop of `passthroughFrom` is idempotent on the streams -/

theorem setSinkIn_nil (k : Nat) (l : List SinkInputInfo) : l.map (setSinkIn [] k) = l := by
  have : setSinkIn [] k = id := by
    funext x; simp [setSinkIn]
  rw [this, List.map_id]

theorem setSinkIn_cons (i k : Nat) (ids : List Nat) (x : SinkInputInfo) :
    setSinkIn ids k (setSink i k x) = setSinkIn (i :: ids) k x := by
  unfold setSinkIn setSink
  by_cases h1 : x.index = i <;> by_cases h2 : x.index ∈ ids <;> simp [h1, h2]

theorem setSinkIn_idem (ids : List Nat) (k : Nat) (x : SinkInputInfo) :
    setSinkIn ids k (setSinkIn ids k x) = setSinkIn ids k x := by
  unfold setSinkIn
  by_cases h : x.index ∈ ids <;> simp [h]

theorem target_byName {srv : Server} {i k : Nat} {n : String}
    (h : srv.target (.moveSinkInputByName i n) = some k) : srv.sinkByName n = some k := by
  unfold Server.target at h
  split at h
  · exact h
  · cases h

theorem moveSinkInput_sinkInputs (srv : Server) (r : Request) (idx : Nat) :
    (srv.moveSinkInput r idx).2.sinkInputs
      = match srv.target r with
        | some k => srv.sinkInputs.map (setSink idx k)
        | none => srv.sinkInputs := by
  unfold Server.moveSinkInput
  cases srv.target r <;> rfl

theorem passthroughLoop_step (name : String) (apps : List PulsePlaybackApp) (srv : Server) :
    SinkStep srv (passthroughLoop name apps srv).2 := by
  induction apps generalizing srv with
  | nil => exact SinkStep.same srv
  | cons p rest ih =>
    by_cases hp : p.name = name
    · rcases hm : srv.moveSinkInputByName p.id "soundux_sink_passthrough" with ⟨b, srv1⟩
      have hstep : SinkStep srv srv1 := by
        have := moveSinkInput_step srv (.moveSinkInputByName p.id "soundux_sink_passthrough") p.id
        rwa [← Server.moveSinkInputByName, hm] at this
      cases b with
      | false => simpa [passthroughLoop, hp, hm] using hstep
      | true =>
        simp only [passthroughLoop, hp, if_true, hm]
        exact hstep.andThen (ih srv1)
    · simp only [passthroughLoop, hp, if_false]
      exact ih srv

/-- The loop of `passthroughFrom` in terms of the keys of the enumeration. -/
theorem passthroughLoop_spec (name : String) (apps : List PulsePlaybackApp) (srv : Server) :
    (passthroughLoop name apps srv).1
        = (loopIds (fun i => srv.accepts (.moveSinkInputByName i "soundux_sink_passthrough"))
            name (apps.map fun a => (a.id, a.name))).1
    ∧ (passthroughLoop name apps srv).2.sinkInputs
        = srv.sinkInputs.map
            (setSinkIn
              (loopIds (fun i => srv.accepts (.moveSinkInputByName i "soundux_sink_passthrough"))
                name (apps.map fun a => (a.id, a.name))).2
              ((srv.sinkByName "soundux_sink_passthrough").getD 0)) := by
  induction apps generalizing srv with
  | nil => simp [passthroughLoop, loopIds, setSinkIn_nil]
  | cons p rest ih =>
    by_cases hp : p.name = name
    · rcases hm : srv.moveSinkInputByName p.id "soundux_sink_passthrough" with ⟨b, srv1⟩
      have hb : b = srv.accepts (.moveSinkInputByName p.id "soundux_sink_passthrough") := by
        have := moveSinkInput_fst srv (.moveSinkInputByName p.id "soundux_sink_passthrough") p.id
        rw [← Server.moveSinkInputByName, hm] at this
        exact this
      have hstep : SinkStep srv srv1 := by
        have := moveSinkInput_step srv (.moveSinkInputByName p.id "soundux_sink_passthrough") p.id
        rwa [← Server.moveSinkInputByName, hm] at this
      have hsi : srv1.sinkInputs
          = match srv.target (.moveSinkInputByName p.id "soundux_sink_passthrough") with
            | some k => srv.sinkInputs.map (setSink p.id k)
            | none => srv.sinkInputs := by
        have := moveSinkInput_sinkInputs srv
          (.moveSinkInputByName p.id "soundux_sink_passthrough") p.id
        rwa [← Server.moveSinkInputByName, hm] at this
      have hacc : (fun i => srv1.accepts (.moveSinkInputByName i "soundux_sink_passthrough"))
          = fun i => srv.accepts (.moveSinkInputByName i "soundux_sink_passthrough") := by
        funext i; exact hstep.sameAccepts _
      cases b with
      | false =>
        cases ht : srv.target (.moveSinkInputByName p.id "soundux_sink_passthrough") with
        | some k => simp [Server.accepts, ht] at hb
        | none =>
          rw [ht] at hsi
          simp [passthroughLoop, loopIds, hp, hm, ← hb, hsi, setSinkIn_nil]
      | true =>
        cases ht : srv.target (.moveSinkInputByName p.id "soundux_sink_passthrough") with
        | none => simp [Server.accepts, ht] at hb
        | some k =>
          rw [ht] at hsi
          have hk := target_byName ht
          have ih1 := ih srv1
          rw [hacc, hstep.sinkByName_eq, hk] at ih1
          simp only [passthroughLoop, hp, if_true, hm, List.map_cons, loopIds, ← hb, hk,
            Option.getD_some]
          refine ⟨ih1.1, ?_⟩
          rw [ih1.2, hsi, List.map_map]
          apply List.map_congr_left
          intro x _
          exact setSinkIn_cons p.id k _ x
    · simp only [passthroughLoop, hp, if_false, List.map_cons, loopIds]
      exact ih srv

theorem stopPassthroughPure_idle (pa : PulseAudio) (srv : Server)
    (h : pa.movedPassthroughApplication = none) : stopPassthroughPure pa srv = (true, pa, srv) := by
  unfold stopPassthroughPure
  rw [h]

/-- Running the enumeration and the loop again, on the server the loop left,
gives the same verdict and leaves every stream where it is. -/
theorem passthroughLoop_again (name : String) (srv : Server) :
    (passthroughLoop name
        (getPlaybackAppsPure (passthroughLoop name (getPlaybackAppsPure srv).1 (getPlaybackAppsPure srv).2).2).1
        (getPlaybackAppsPure
          (passthroughLoop name (getPlaybackAppsPure srv).1 (getPlaybackAppsPure srv).2).2).2).1
      = (passthroughLoop name (getPlaybackAppsPure srv).1 (getPlaybackAppsPure srv).2).1
    ∧ (passthroughLoop name
        (getPlaybackAppsPure (passthroughLoop name (getPlaybackAppsPure srv).1 (getPlaybackAppsPure srv).2).2).1
        (getPlaybackAppsPure
          (passthroughLoop name (getPlaybackAppsPure srv).1 (getPlaybackAppsPure srv).2).2).2).2.sinkInputs
      = (passthroughLoop name (getPlaybackAppsPure srv).1 (getPlaybackAppsPure srv).2).2.sinkInputs := by
  have hstep1 : SinkStep srv (passthroughLoop name (getPlaybackAppsPure srv).1 (getPlaybackAppsPure srv).2).2 :=
    (getPlaybackAppsPure_step srv).andThen (passthroughLoop_step _ _ _)
  have hstep2 := hstep1.andThen
    (getPlaybackAppsPure_step (passthroughLoop name (getPlaybackAppsPure srv).1 (getPlaybackAppsPure srv).2).2)
  have h1 := passthroughLoop_spec name (getPlaybackAppsPure srv).1 (getPlaybackAppsPure srv).2
  have h2 := passthroughLoop_spec name
    (getPlaybackAppsPure (passthroughLoop name (getPlaybackAppsPure srv).1 (getPlaybackAppsPure srv).2).2).1
    (getPlaybackAppsPure (passthroughLoop name (getPlaybackAppsPure srv).1 (getPlaybackAppsPure srv).2).2).2
  have hacc2 : (fun i => (getPlaybackAppsPure
        (passthroughLoop name (getPlaybackAppsPure srv).1 (getPlaybackAppsPure srv).2).2).2.accepts
          (.moveSinkInputByName i "soundux_sink_passthrough"))
      = fun i => srv.accepts (.moveSinkInputByName i "soundux_sink_passthrough") := by
    funext i; exact hstep2.sameAccepts _
  have hacc1 : (fun i => (getPlaybackAppsPure srv).2.accepts
        (.moveSinkInputByName i "soundux_sink_passthrough"))
      = fun i => srv.accepts (.moveSinkInputByName i "soundux_sink_passthrough") := by
    funext i; exact (getPlaybackAppsPure_step srv).sameAccepts _
  rw [hacc2, getPlaybackAppsPure_keys, hstep1.keys_eq, hstep2.sinkByName_eq] at h2
  rw [hacc1, getPlaybackAppsPure_keys, (getPlaybackAppsPure_step srv).sinkByName_eq] at h1
  refine ⟨h2.1.trans h1.1.symm, ?_⟩
  rw [h2.2]
  have : (getPlaybackAppsPure
      (passthroughLoop name (getPlaybackAppsPure srv).1 (getPlaybackAppsPure srv).2).2).2.sinkInputs
      = (passthroughLoop name (getPlaybackAppsPure srv).1 (getPlaybackAppsPure srv).2).2.sinkInputs := rfl
  rw [this, h1.2, List.map_map]
  apply List.map_congr_left
  intro x _
  exact setSinkIn_idem _ _ x

theorem passthroughFromPure_same (app t : PlaybackApp) (pa : PulseAudio) (srv : Server)
    (hm : pa.movedPassthroughApplication = some t) (hn : t.name = app.name) :
    passthroughFromPure (some app) pa srv = .ok (true, pa, srv) := by
  unfold passthroughFromPure alreadyMoved
  rw [hm]
  simp [hn]

/-! ## The server under source-output requests -/

theorem SourceStep.unchanged (srv : Server) : SourceStep srv srv :=
  ⟨fun _ => rfl, rfl, rfl⟩

theorem SourceStep.followedBy {a b c : Server} (h1 : SourceStep a b) (h2 : SourceStep b c) :
    SourceStep a c :=
  ⟨fun r => (h2.target_eq r).trans (h1.target_eq r), h2.erased_eq.trans h1.erased_eq,
    h2.sinkInputs_eq.trans h1.sinkInputs_eq⟩

theorem SourceStep.acceptsAlike {a b : Server} (h : SourceStep a b) (r : Request) :
    b.accepts r = a.accepts r := by
  simp [Server.accepts, h.target_eq]

theorem eraseSource_setSource (idx k : Nat) (o : SourceOutputInfo) :
    eraseSource (setSource idx k o) = eraseSource o := by
  unfold setSource eraseSource; split <;> rfl

theorem moveSourceOutput_fst (srv : Server) (r : Request) (idx : Nat) :
    (srv.moveSourceOutput r idx).1 = srv.accepts r := by
  unfold Server.moveSourceOutput Server.accepts
  cases srv.target r <;> rfl

theorem moveSourceOutput_step (srv : Server) (r : Request) (idx : Nat) :
    SourceStep srv (srv.moveSourceOutput r idx).2 := by
  unfold Server.moveSourceOutput
  cases h : srv.target r with
  | none => exact ⟨fun _ => rfl, rfl, rfl⟩
  | some k =>
    refine ⟨fun _ => rfl, ?_, rfl⟩
    simp only [List.map_map]
    apply List.map_congr_left
    intro o _
    exact eraseSource_setSource idx k o

theorem moveSourceOutput_sourceOutputs (srv : Server) (r : Request) (idx : Nat) :
    (srv.moveSourceOutput r idx).2.sourceOutputs
      = match srv.target r with
        | some k => srv.sourceOutputs.map (setSource idx k)
        | none => srv.sourceOutputs := by
  unfold Server.moveSourceOutput
  cases srv.target r <;> rfl

theorem getRecordingAppsPure_step (srv : Server) : SourceStep srv (getRecordingAppsPure srv).2 :=
  ⟨fun _ => rfl, rfl, rfl⟩

theorem setSourceIn_nil (k : Nat) (l : List SourceOutputInfo) :
    l.map (setSourceIn [] k) = l := by
  have : setSourceIn [] k = id := by
    funext x; simp [setSourceIn]
  rw [this, List.map_id]

theorem setSourceIn_cons (i k : Nat) (ids : List Nat) (x : SourceOutputInfo) :
    setSourceIn ids k (setSource i k x) = setSourceIn (i :: ids) k x := by
  unfold setSourceIn setSource
  by_cases h1 : x.index = i <;> by_cases h2 : x.index ∈ ids <;> simp [h1, h2]

/-! ## `stopSoundInput` and the loop of `inputSoundTo` -/

theorem stopSoundInputLoop_step (moved : PulseRecordingApp) (apps : List PulseRecordingApp)
    (success : Bool) (srv : Server) :
    SourceStep srv (stopSoundInputLoop moved apps success srv).2 := by
  induction apps generalizing srv success with
  | nil => exact SourceStep.unchanged srv
  | cons p rest ih =>
    by_cases hp : p.name = moved.name
    · simp only [stopSoundInputLoop, hp, if_true]
      exact (moveSourceOutput_step srv _ p.id).followedBy (ih _ _)
    · simp only [stopSoundInputLoop, hp, if_false]
      exact ih _ _

theorem stopSoundInputPure_step (pa : PulseAudio) (srv : Server) :
    SourceStep srv (stopSoundInputPure pa srv).2.2 := by
  unfold stopSoundInputPure
  cases pa.movedApplication with
  | none => exact SourceStep.unchanged srv
  | some moved => exact (getRecordingAppsPure_step srv).followedBy (stopSoundInputLoop_step _ _ _ _)

theorem inputSoundLoop_step (name : String) (apps : List PulseRecordingApp) (srv : Server) :
    SourceStep srv (inputSoundLoop name apps srv) := by
  induction apps generalizing srv with
  | nil => exact SourceStep.unchanged srv
  | cons p rest ih =>
    by_cases hp : p.name = name
    · simp only [inputSoundLoop, hp, if_true]
      exact (moveSourceOutput_step srv _ p.id).followedBy (ih _)
    · simp only [inputSoundLoop, hp, if_false]
      exact ih _

/-- When the server accepts every move back to the recorded source, the loop
of `stopSoundInput` keeps `success` and attaches every stream it picks to
that source. -/
theorem stopSoundInputLoop_accepted (moved : PulseRecordingApp)
    (apps : List PulseRecordingApp) (success : Bool) (srv : Server)
    (hacc : ∀ i, srv.accepts (.moveSourceOutputByIndex i moved.source) = true) :
    (stopSoundInputLoop moved apps success srv).1 = success
    ∧ (stopSoundInputLoop moved apps success srv).2.sourceOutputs
        = srv.sourceOutputs.map
            (setSourceIn ((apps.filter fun p => decide (p.name = moved.name)).map fun p => p.id)
              moved.source) := by
  induction apps generalizing srv success with
  | nil => simp [stopSoundInputLoop, setSourceIn_nil]
  | cons p rest ih =>
    by_cases hp : p.name = moved.name
    · have hstep := moveSourceOutput_step srv (.moveSourceOutputByIndex p.id moved.source) p.id
      have hok := moveSourceOutput_fst srv (.moveSourceOutputByIndex p.id moved.source) p.id
      rw [hacc p.id] at hok
      have ht : srv.target (.moveSourceOutputByIndex p.id moved.source) = some moved.source := by
        have h := hacc p.id
        unfold Server.accepts Server.target at h
        unfold Server.target
        split
        · rfl
        · rename_i hperm; simp [hperm] at h
      have hso := moveSourceOutput_sourceOutputs srv
        (.moveSourceOutputByIndex p.id moved.source) p.id
      rw [ht] at hso
      have ih1 := ih (success && true)
        (srv.moveSourceOutput (.moveSourceOutputByIndex p.id moved.source) p.id).2
        (fun i => by rw [hstep.acceptsAlike]; exact hacc i)
      simp only [stopSoundInputLoop, hp, if_true, Server.moveSourceOutputByIndex, hok]
      refine ⟨by rw [ih1.1]; simp, ?_⟩
      rw [ih1.2, hso, List.map_map]
      simp only [List.filter_cons, hp, decide_True, if_true, List.map_cons]
      apply List.map_congr_left
      intro x _
      exact setSourceIn_cons p.id moved.source _ x
    · simp only [stopSoundInputLoop, hp, if_false]
      have ih1 := ih success srv hacc
      refine ⟨ih1.1, ?_⟩
      rw [ih1.2]
      simp [List.filter_cons, hp]

/-- A capturing source output named as a listed stream has its index among
the indices the loop of `stopSoundInput` picks. -/
theorem index_mem_picked (srv : Server) (name : String) (o : SourceOutputInfo)
    (ho : o ∈ srv.sourceOutputs) (hc : capturingSourceOutput o = true)
    (hn : nameOf o.proplist = name) :
    o.index ∈ ((getRecordingAppsPure srv).1.filter fun p => decide (p.name = name)).map
      fun p => p.id := by
  rw [getRecordingAppsPure_fst]
  refine List.mem_map.mpr ⟨recordingRecord o, ?_, rfl⟩
  refine List.mem_filter.mpr ⟨List.mem_map.mpr ⟨o, List.mem_filter.mpr ⟨ho, hc⟩, rfl⟩, ?_⟩
  simp [recordingRecord, hn]

theorem stopSoundInputPure_clears (pa : PulseAudio) (srv : Server) :
    (stopSoundInputPure pa srv).2.1 = { pa with movedApplication := none } := by
  unfold stopSoundInputPure
  cases hm : pa.movedApplication with
  | none => cases pa; simp_all
  | some moved => rfl

theorem inputSoundToPure_new (app : RecordingApp) (pa : PulseAudio) (srv : Server)
    (hnew : ∀ t, pa.movedApplication = some t → t.name ≠ app.name) :
    inputSoundToPure (some app) pa srv
      = (true, { pa with movedApplication := some app },
          inputSoundLoop app.name (getRecordingAppsPure (stopSoundInputPure pa srv).2.2).1
            (getRecordingAppsPure (stopSoundInputPure pa srv).2.2).2) := by
  have hc : (match pa.movedApplication with
      | some moved => decide (moved.name = app.name)
      | none => false) = false := by
    cases hm : pa.movedApplication with
    | none => rfl
    | some t => simp [hnew t hm]
  unfold inputSoundToPure
  simp only [hc, Bool.false_eq_true, if_false]
  have := stopSoundInputPure_clears pa srv
  rcases hst : stopSoundInputPure pa srv with ⟨b, pa1, srv1⟩
  rw [hst] at this
  simp only at this
  simp [this]

theorem restore_source {a b : SourceOutputInfo} (h : eraseSource a = eraseSource b) :
    { a with source := b.source } = b := by
  cases a; cases b
  simp only [eraseSource, SourceOutputInfo.mk.injEq] at h ⊢
  tauto

theorem setSourceIn_of_mem {ids : List Nat} {k : Nat} {o : SourceOutputInfo}
    (h : o.index ∈ ids) : setSourceIn ids k o = { o with source := k } := by
  simp [setSourceIn, h]

theorem capturing_of_erased {a b : SourceOutputInfo} (h : eraseSource a = eraseSource b) :
    capturingSourceOutput a = capturingSourceOutput b
    ∧ nameOf a.proplist = nameOf b.proplist := by
  cases a; cases b
  simp only [eraseSource, SourceOutputInfo.mk.injEq] at h
  simp [capturingSourceOutput, h]

/-! ## `unloadLeftOvers` -/

theorem unloadModule_log (srv : Server) (idx : Nat) :
    (srv.unloadModule idx).log = srv.log ++ [.unloadModule idx] := rfl

theorem unloadModule_mem {srv : Server} {idx : Nat} {m : ModuleInfo}
    (h : m ∈ (srv.unloadModule idx).modules) : m ∈ srv.modules ∧ m.index ≠ idx := by
  simp only [Server.unloadModule, survives, List.mem_filter, Bool.not_eq_true',
    Bool.or_eq_false_iff, decide_eq_false_iff_not] at h
  exact ⟨h.1, h.2.1⟩

/-- The callbacks of `unloadLeftOvers` over the records `l`, from server `s`:
what they send, and what they leave of the modules. -/
theorem foldl_unloadLeftOversCallback (l : List ModuleInfo) (s : Server) :
    ((l.map some).foldl unloadLeftOversCallback s).log
        = s.log ++ (l.filter isLeftOver).map (fun m => Request.unloadModule m.index)
    ∧ ((l.map some).foldl unloadLeftOversCallback s).assignIndex = s.assignIndex
    ∧ ((l.map some).foldl unloadLeftOversCallback s).serverInfo = s.serverInfo
    ∧ ((l.map some).foldl unloadLeftOversCallback s).sinkInputs = s.sinkInputs
    ∧ ((l.map some).foldl unloadLeftOversCallback s).sourceOutputs = s.sourceOutputs
    ∧ (∀ m ∈ ((l.map some).foldl unloadLeftOversCallback s).modules,
        m ∈ s.modules ∧ ∀ r ∈ l, isLeftOver r = true → m.index ≠ r.index)
    ∧ ((∀ r ∈ l, isLeftOver r = false) →
        ((l.map some).foldl unloadLeftOversCallback s).modules = s.modules) := by
  induction l generalizing s with
  | nil => simp
  | cons r l ih =>
    rw [List.map_cons, List.foldl_cons]
    by_cases hr : isLeftOver r = true
    · have hstep : unloadLeftOversCallback s (some r) = s.unloadModule r.index := by
        unfold isLeftOver at hr
        unfold unloadLeftOversCallback
        cases ha : r.argument with
        | none => simp [ha] at hr
        | some a =>
          simp only [ha] at hr ⊢
          simp [hr]
      rw [hstep]
      obtain ⟨h1, h2, h3, h4, h5, h6, _⟩ := ih (s.unloadModule r.index)
      refine ⟨?_, h2, h3, h4, h5, ?_, ?_⟩
      · rw [h1, unloadModule_log]; simp [List.filter_cons, hr]
      · intro m hm
        obtain ⟨hm1, hm2⟩ := h6 m hm
        obtain ⟨hm3, hm4⟩ := unloadModule_mem hm1
        refine ⟨hm3, ?_⟩
        intro r' hr' hl
        rcases List.mem_cons.mp hr' with rfl | hr'
        · exact hm4
        · exact hm2 r' hr' hl
      · intro hall
        have := hall r (List.mem_cons_self _ _)
        rw [hr] at this; cases this
    · have hr' : isLeftOver r = false := by simpa using hr
      have hstep : unloadLeftOversCallback s (some r) = s := by
        unfold isLeftOver at hr'
        unfold unloadLeftOversCallback
        cases ha : r.argument with
        | none => simp only [ha]
        | some a =>
          simp only [ha] at hr' ⊢
          simp [hr']
      rw [hstep]
      obtain ⟨h1, h2, h3, h4, h5, h6, h7⟩ := ih s
      refine ⟨?_, h2, h3, h4, h5, ?_, ?_⟩
      · rw [h1]; simp [List.filter_cons, hr']
      · intro m hm
        obtain ⟨hm1, hm2⟩ := h6 m hm
        refine ⟨hm1, ?_⟩
        intro r' hr'' hl
        rcases List.mem_cons.mp hr'' with rfl | hr''
        · rw [hr'] at hl; cases hl
        · exact hm2 r' hr'' hl
      · intro hall
        exact h7 (fun r' hr'' => hall r' (List.mem_cons_of_mem _ hr''))

theorem unloadLeftOvers_eq (srv : Server) :
    unloadLeftOvers srv
      = (srv.modules.map some).foldl unloadLeftOversCallback
          { srv with log := srv.log ++ [.getModuleInfoList] } := by
  simp [unloadLeftOvers, infoListCalls, List.foldl_append, unloadLeftOversCallback]

theorem unloadLeftOvers_log (srv : Server) :
    (unloadLeftOvers srv).log
      = srv.log ++ [.getModuleInfoList]
        ++ (srv.modules.filter isLeftOver).map (fun m => Request.unloadModule m.index) := by
  rw [unloadLeftOvers_eq]
  exact (foldl_unloadLeftOversCallback srv.modules _).1

theorem unloadLeftOvers_assignIndex (srv : Server) :
    (unloadLeftOvers srv).assignIndex = srv.assignIndex := by
  rw [unloadLeftOvers_eq]
  exact (foldl_unloadLeftOversCallback srv.modules _).2.1

theorem unloadLeftOvers_serverInfo (srv : Server) :
    (unloadLeftOvers srv).serverInfo = srv.serverInfo := by
  rw [unloadLeftOvers_eq]
  exact (foldl_unloadLeftOversCallback srv.modules _).2.2.1

/-- What `unloadLeftOvers` leaves was loaded before and is no leftover. -/
theorem unloadLeftOvers_mem {srv : Server} {m : ModuleInfo}
    (h : m ∈ (unloadLeftOvers srv).modules) : m ∈ srv.modules ∧ isLeftOver m = false := by
  rw [unloadLeftOvers_eq] at h
  obtain ⟨h1, h2⟩ := (foldl_unloadLeftOversCallback srv.modules _).2.2.2.2.2.1 m h
  refine ⟨h1, ?_⟩
  cases hl : isLeftOver m with
  | false => rfl
  | true => exact absurd rfl (h2 m h1 hl)

theorem unloadLeftOvers_nothing (srv : Server)
    (h : ∀ m ∈ srv.modules, isLeftOver m = false) :
    (unloadLeftOvers srv).modules = srv.modules := by
  rw [unloadLeftOvers_eq]
  exact (foldl_unloadLeftOversCallback srv.modules _).2.2.2.2.2.2 h

/-! ## The load callbacks -/

theorem asInt_neg_iff (id : Nat) : asInt id < 0 ↔ 2147483648 ≤ id % 4294967296 := by
  unfold asInt
  split <;> omega

theorem loadModuleAwait_ok (srv : Server) (name argument : String)
    (h : srv.assignIndex name argument % 4294967296 < 2147483648) :
    loadModuleAwait srv name argument
      = .ok (srv.assignIndex name argument % 4294967296,
          { srv with
            modules := srv.modules
              ++ [loadedModule (srv.assignIndex name argument % 4294967296) (name, argument)]
            log := srv.log ++ [.loadModule name argument] }) := by
  have hne : srv.assignIndex name argument % 4294967296 ≠ 4294967295 := by omega
  have hpos : ¬ asInt (srv.assignIndex name argument % 4294967296) < 0 := by
    rw [asInt_neg_iff]; omega
  simp [loadModuleAwait, Server.loadModule, loadModuleCallback, hne, hpos, loadedModule]

theorem loadModuleAwait_bad (srv : Server) (name argument : String)
    (h : 2147483648 ≤ srv.assignIndex name argument % 4294967296) :
    ∃ srv1, loadModuleAwait srv name argument = .error (.terminate, srv1)
      ∧ srv1.log = srv.log ++ [.loadModule name argument] := by
  have hneg : asInt (srv.assignIndex name argument % 4294967296) < 0 := by
    rw [asInt_neg_iff]; omega
  unfold loadModuleAwait Server.loadModule
  by_cases hinv : srv.assignIndex name argument % 4294967296 = 4294967295
  · rw [hinv] at hneg
    simp only [loadModuleCallback, hinv, if_true, hneg]
    exact ⟨_, rfl, rfl⟩
  · simp only [loadModuleCallback, hinv, if_false, hneg, if_true]
    exact ⟨_, rfl, rfl⟩

/-! ## `setup` as a run of loads -/

theorem setupPure_eq_loadAll (pa : PulseAudio) (srv : Server) :
    setupPure pa srv
      = match loadAll (serverBeforeLoads srv) (expectedLoads (sourceForSetup pa srv)) with
        | .error e => .error e
        | .ok (ids, srv1) =>
          .ok ({ pa with
                  defaultSource := sourceForSetup pa srv
                  nullSink := ids.getD 0 0
                  loopBack := ids.getD 1 0
                  passthrough := ids.getD 2 0
                  passthroughSink := ids.getD 3 0
                  passthroughLoopBack := ids.getD 4 0 }, srv1) := by
  have hI := unloadLeftOvers_serverInfo srv
  have hpa : (fetchDefaultSource pa (unloadLeftOvers srv)).1
      = { pa with defaultSource := sourceForSetup pa srv } := by
    unfold fetchDefaultSource sourceForSetup
    rw [hI]; cases hs : srv.serverInfo
    · cases pa; rfl
    · rfl
  have hsrv : (getRecordingAppsPure (getPlaybackAppsPure
      (fetchDefaultSource pa (unloadLeftOvers srv)).2).2).2 = serverBeforeLoads srv := by
    simp [getRecordingAppsPure, getPlaybackAppsPure, fetchDefaultSource, serverBeforeLoads]
  unfold setupPure
  have e1 : fetchDefaultSource pa (unloadLeftOvers srv)
      = ((fetchDefaultSource pa (unloadLeftOvers srv)).1,
         (fetchDefaultSource pa (unloadLeftOvers srv)).2) := rfl
  rw [e1, hpa]
  simp only []
  have e2 : ∀ s, getPlaybackAppsPure s = ((getPlaybackAppsPure s).1, (getPlaybackAppsPure s).2) :=
    fun _ => rfl
  have e3 : ∀ s, getRecordingAppsPure s = ((getRecordingAppsPure s).1, (getRecordingAppsPure s).2) :=
    fun _ => rfl
  rw [e2, e3]
  simp only []
  rw [hsrv]
  generalize serverBeforeLoads srv = s0
  generalize sourceForSetup pa srv = ds
  simp only [expectedLoads, loadAll]
  rcases loadModuleAwait s0 _ _ with e | ⟨i1, s1⟩
  · rfl
  simp only []
  rcases loadModuleAwait s1 _ _ with e | ⟨i2, s2⟩
  · rfl
  simp only []
  rcases loadModuleAwait s2 _ _ with e | ⟨i3, s3⟩
  · rfl
  simp only []
  rcases loadModuleAwait s3 _ _ with e | ⟨i4, s4⟩
  · rfl
  simp only []
  rcases loadModuleAwait s4 _ _ with e | ⟨i5, s5⟩
  · rfl
  simp [fixPlaybackApps, fixRecordingApps]

/-- A run of loads against a server that answers with `f`: with no negative
id every module is loaded and every id handed on, else the run ends at the
first negative id, after that load request and before the next. -/
theorem loadAll_spec (f : String → String → Nat) (loads : List (String × String))
    (srv : Server) (hf : srv.assignIndex = f) :
    match firstNegative (loads.map fun na => f na.1 na.2 % 4294967296) with
    | none =>
      loadAll srv loads
        = .ok (loads.map (fun na => f na.1 na.2 % 4294967296),
            { srv with
              modules := srv.modules
                ++ List.zipWith loadedModule (loads.map fun na => f na.1 na.2 % 4294967296) loads
              log := srv.log ++ loads.map fun na => Request.loadModule na.1 na.2 })
    | some k =>
      ∃ srv1, loadAll srv loads = .error (.terminate, srv1)
        ∧ srv1.log = srv.log ++ (loads.take (k + 1)).map fun na => Request.loadModule na.1 na.2 := by
  induction loads generalizing srv with
  | nil => simp [firstNegative, loadAll]
  | cons na rest ih =>
    subst hf
    by_cases hneg : asInt (srv.assignIndex na.1 na.2 % 4294967296) < 0
    · have hbad : 2147483648 ≤ srv.assignIndex na.1 na.2 % 4294967296 := by
        have := (asInt_neg_iff _).mp hneg; omega
      obtain ⟨srv1, h1, h2⟩ := loadModuleAwait_bad srv na.1 na.2 hbad
      simp only [List.map_cons, firstNegative, hneg, if_true]
      exact ⟨srv1, by simp [loadAll, h1], by simpa using h2⟩
    · have hgood : srv.assignIndex na.1 na.2 % 4294967296 < 2147483648 := by
        have := (asInt_neg_iff (srv.assignIndex na.1 na.2 % 4294967296)).not.mp hneg; omega
      have h1 := loadModuleAwait_ok srv na.1 na.2 hgood
      have ih1 := ih
        { srv with
          modules := srv.modules
            ++ [loadedModule (srv.assignIndex na.1 na.2 % 4294967296) (na.1, na.2)]
          log := srv.log ++ [.loadModule na.1 na.2] } rfl
      simp only [List.map_cons, firstNegative, hneg, if_false]
      cases hfn : firstNegative (rest.map fun na => srv.assignIndex na.1 na.2 % 4294967296) with
      | none =>
        rw [hfn] at ih1
        simp only [Option.map_none', loadAll, h1, ih1]
        simp [loadedModule]
      | some k =>
        rw [hfn] at ih1
        obtain ⟨srv1, h3, h4⟩ := ih1
        simp only [Option.map_some', loadAll, h1, h3]
        exact ⟨srv1, rfl, by simp [h4]⟩

theorem serverBeforeLoads_assignIndex (srv : Server) :
    (serverBeforeLoads srv).assignIndex = srv.assignIndex :=
  unloadLeftOvers_assignIndex srv

/-- The five ids as `setup` gets them. -/
theorem setupReplies_eq (pa : PulseAudio) (srv : Server) :
    (expectedLoads (sourceForSetup pa srv)).map
        (fun na => srv.assignIndex na.1 na.2 % 4294967296)
      = setupReplies pa srv := rfl

/-- The outcome of `setup`, read off the five ids. -/
theorem setupPure_spec (pa : PulseAudio) (srv : Server) :
    match firstNegative (setupReplies pa srv) with
    | none =>
      setupPure pa srv
        = .ok ({ pa with
                  defaultSource := sourceForSetup pa srv
                  nullSink := (setupReplies pa srv).getD 0 0
                  loopBack := (setupReplies pa srv).getD 1 0
                  passthrough := (setupReplies pa srv).getD 2 0
                  passthroughSink := (setupReplies pa srv).getD 3 0
                  passthroughLoopBack := (setupReplies pa srv).getD 4 0 },
               { serverBeforeLoads srv with
                  modules := (unloadLeftOvers srv).modules
                    ++ List.zipWith loadedModule (setupReplies pa srv)
                        (expectedLoads (sourceForSetup pa srv))
                  log := (serverBeforeLoads srv).log
                    ++ (expectedLoads (sourceForSetup pa srv)).map
                        fun na => Request.loadModule na.1 na.2 })
    | some k =>
      ∃ srv1, setupPure pa srv = .error (.terminate, srv1)
        ∧ srv1.log = (serverBeforeLoads srv).log
            ++ ((expectedLoads (sourceForSetup pa srv)).take (k + 1)).map
                fun na => Request.loadModule na.1 na.2 := by
  have h := loadAll_spec srv.assignIndex (expectedLoads (sourceForSetup pa srv))
    (serverBeforeLoads srv) (serverBeforeLoads_assignIndex srv)
  rw [setupReplies_eq] at h
  rw [setupPure_eq_loadAll]
  cases hfn : firstNegative (setupReplies pa srv) with
  | none =>
    rw [hfn] at h
    simp only at h ⊢
    rw [h]
    rfl
  | some k =>
    rw [hfn] at h
    obtain ⟨srv1, h1, h2⟩ := h
    exact ⟨srv1, by rw [h1], h2⟩

/-! ## Requests that leave the modules alone -/

theorem ModulesKept.idle (srv : Server) : ModulesKept srv srv :=
  ⟨rfl, rfl, rfl, rfl⟩

theorem ModulesKept.next {a b c : Server} (h1 : ModulesKept a b) (h2 : ModulesKept b c) :
    ModulesKept a c :=
  ⟨h2.modules_eq.trans h1.modules_eq, h2.assignIndex_eq.trans h1.assignIndex_eq,
    h2.unloads_eq.trans h1.unloads_eq, h2.loads_eq.trans h1.loads_eq⟩

theorem moveSinkInputByName_kept (srv : Server) (idx : Nat) (n : String) :
    ModulesKept srv (srv.moveSinkInputByName idx n).2 := by
  unfold Server.moveSinkInputByName Server.moveSinkInput
  cases srv.target (.moveSinkInputByName idx n) <;>
    exact ⟨rfl, rfl, by simp [unloadsIn, List.filterMap_append],
      by simp [loadsIn, List.filterMap_append]⟩

theorem moveSinkInputByIndex_kept (srv : Server) (idx k : Nat) :
    ModulesKept srv (srv.moveSinkInputByIndex idx k).2 := by
  unfold Server.moveSinkInputByIndex Server.moveSinkInput
  cases srv.target (.moveSinkInputByIndex idx k) <;>
    exact ⟨rfl, rfl, by simp [unloadsIn, List.filterMap_append],
      by simp [loadsIn, List.filterMap_append]⟩

theorem moveSourceOutputByName_kept (srv : Server) (idx : Nat) (n : String) :
    ModulesKept srv (srv.moveSourceOutputByName idx n).2 := by
  unfold Server.moveSourceOutputByName Server.moveSourceOutput
  cases srv.target (.moveSourceOutputByName idx n) <;>
    exact ⟨rfl, rfl, by simp [unloadsIn, List.filterMap_append],
      by simp [loadsIn, List.filterMap_append]⟩

theorem moveSourceOutputByIndex_kept (srv : Server) (idx k : Nat) :
    ModulesKept srv (srv.moveSourceOutputByIndex idx k).2 := by
  unfold Server.moveSourceOutputByIndex Server.moveSourceOutput
  cases srv.target (.moveSourceOutputByIndex idx k) <;>
    exact ⟨rfl, rfl, by simp [unloadsIn, List.filterMap_append],
      by simp [loadsIn, List.filterMap_append]⟩

theorem getPlaybackAppsPure_kept (srv : Server) : ModulesKept srv (getPlaybackAppsPure srv).2 :=
  ⟨rfl, rfl, by simp [getPlaybackAppsPure, unloadsIn, List.filterMap_append],
    by simp [getPlaybackAppsPure, loadsIn, List.filterMap_append]⟩

theorem getRecordingAppsPure_kept (srv : Server) : ModulesKept srv (getRecordingAppsPure srv).2 :=
  ⟨rfl, rfl, by simp [getRecordingAppsPure, unloadsIn, List.filterMap_append],
    by simp [getRecordingAppsPure, loadsIn, List.filterMap_append]⟩

theorem stopSoundInputLoop_kept (moved : PulseRecordingApp) (apps : List PulseRecordingApp)
    (success : Bool) (srv : Server) :
    ModulesKept srv (stopSoundInputLoop moved apps success srv).2 := by
  induction apps generalizing srv success with
  | nil => exact ModulesKept.idle srv
  | cons p rest ih =>
    by_cases hp : p.name = moved.name
    · simp only [stopSoundInputLoop, hp, if_true]
      exact (moveSourceOutputByIndex_kept srv _ _).next (ih _ _)
    · simp only [stopSoundInputLoop, hp, if_false]
      exact ih _ _

theorem stopSoundInputPure_kept (pa : PulseAudio) (srv : Server) :
    ModulesKept srv (stopSoundInputPure pa srv).2.2 := by
  unfold stopSoundInputPure
  cases pa.movedApplication with
  | none => exact ModulesKept.idle srv
  | some moved => exact (getRecordingAppsPure_kept srv).next (stopSoundInputLoop_kept _ _ _ _)

theorem stopPassthroughPure_kept (pa : PulseAudio) (srv : Server) :
    ModulesKept srv (stopPassthroughPure pa srv).2.2 := by
  unfold stopPassthroughPure
  cases pa.movedPassthroughApplication with
  | none => exact ModulesKept.idle srv
  | some moved =>
    cases hl : (getPlaybackAppsPure srv).1 with
    | nil =>
      have : getPlaybackAppsPure srv = ([], (getPlaybackAppsPure srv).2) := by rw [← hl]
      rw [this]
      exact getPlaybackAppsPure_kept srv
    | cons app rest =>
      have : getPlaybackAppsPure srv = (app :: rest, (getPlaybackAppsPure srv).2) := by rw [← hl]
      rw [this]
      by_cases hn : app.name = moved.name
      · simp only [hn, if_true]
        exact (getPlaybackAppsPure_kept srv).next (moveSinkInputByIndex_kept _ _ _)
      · simp only [hn, if_false]
        exact getPlaybackAppsPure_kept srv

/-- The handles `stopSoundInput` and `stopPassthrough` leave in the backend. -/
theorem stopSoundInputPure_handles (pa : PulseAudio) (srv : Server) :
    (stopSoundInputPure pa srv).2.1.nullSink = pa.nullSink
    ∧ (stopSoundInputPure pa srv).2.1.loopBack = pa.loopBack
    ∧ (stopSoundInputPure pa srv).2.1.passthrough = pa.passthrough
    ∧ (stopSoundInputPure pa srv).2.1.movedPassthroughApplication
        = pa.movedPassthroughApplication := by
  rw [stopSoundInputPure_clears]
  exact ⟨rfl, rfl, rfl, rfl⟩

theorem stopPassthroughPure_handles (pa : PulseAudio) (srv : Server) :
    (stopPassthroughPure pa srv).2.1.nullSink = pa.nullSink
    ∧ (stopPassthroughPure pa srv).2.1.loopBack = pa.loopBack
    ∧ (stopPassthroughPure pa srv).2.1.passthrough = pa.passthrough := by
  rw [stopPassthroughPure_moved]
  split <;> exact ⟨rfl, rfl, rfl⟩

/-- `destroy` is the two reverts and then the three unloads. -/
theorem destroyPure_eq (pa : PulseAudio) (srv : Server) :
    (destroyPure pa srv).2
      = (((stopPassthroughPure (stopSoundInputPure pa srv).2.1
            (stopSoundInputPure pa srv).2.2).2.2.unloadModule pa.nullSink).unloadModule
            pa.loopBack).unloadModule pa.passthrough := by
  have h1 := stopSoundInputPure_handles pa srv
  have h2 := stopPassthroughPure_handles (stopSoundInputPure pa srv).2.1 (stopSoundInputPure pa srv).2.2
  unfold destroyPure revertDefault
  simp only []
  rw [h2.1, h2.2.1, h2.2.2, h1.1, h1.2.1, h1.2.2.1]

/-! ## Module arguments and references -/

theorem splitOnChar_occurs (sep : Char) (s : List Char) :
    (∃ t ts, splitOnChar sep s = t :: ts ∧ t <+: s) ∧ ∀ t ∈ splitOnChar sep s, t <:+: s := by
  induction s with
  | nil =>
    refine ⟨⟨[], [], rfl, List.prefix_refl _⟩, ?_⟩
    intro t ht
    simp only [splitOnChar, List.mem_singleton] at ht
    subst ht
    exact List.infix_refl _
  | cons c cs ih =>
    obtain ⟨⟨t0, ts, hsplit, hpre⟩, hall⟩ := ih
    by_cases hc : c = sep
    · simp only [splitOnChar, hc, if_true]
      refine ⟨⟨[], _, rfl, List.nil_prefix⟩, ?_⟩
      intro t ht
      rcases List.mem_cons.mp ht with rfl | ht
      · exact List.nil_infix
      · exact (hall t ht).trans (List.suffix_cons _ _).isInfix
    · simp only [splitOnChar, hc, if_false, hsplit]
      refine ⟨⟨c :: t0, ts, rfl, (List.prefix_cons_inj c).mpr hpre⟩, ?_⟩
      intro t ht
      rcases List.mem_cons.mp ht with rfl | ht
      · exact ((List.prefix_cons_inj c).mpr hpre).isInfix
      · have : t ∈ splitOnChar sep cs := by rw [hsplit]; exact List.mem_cons_of_mem _ ht
        exact (hall t this).trans (List.suffix_cons _ _).isInfix

/-- The value of every item of an argument occurs in the argument. -/
theorem argumentItems_occur (argument : String) (kv : List Char × List Char)
    (h : kv ∈ argumentItems argument) : kv.2 <:+: argument.data := by
  unfold argumentItems at h
  obtain ⟨item, hitem, rfl⟩ := List.mem_map.mp h
  have h1 : item <:+: argument.data := (splitOnChar_occurs ' ' argument.data).2 item hitem
  have h2 : (item.dropWhile fun c => c != '=').drop 1 <:+: item :=
    ((List.drop_suffix _ _).trans (List.dropWhile_suffix _)).isInfix
  exact h2.trans h1

theorem usedNames_occur (m : ModuleInfo) (n : List Char) (h : n ∈ usedNames m) :
    ∃ argument, m.argument = some argument ∧ n <:+: argument.data := by
  unfold usedNames at h
  cases ha : m.argument with
  | none => simp [ha] at h
  | some argument =>
    simp only [ha] at h
    obtain ⟨kv, hkv, rfl⟩ := List.mem_map.mp h
    exact ⟨argument, rfl, argumentItems_occur argument kv (List.mem_filter.mp hkv).1⟩

/-- A module that is no leftover references no module whose devices all have
"soundux" in their names. -/
theorem references_of_not_leftOver (m r : ModuleInfo) (hm : isLeftOver m = false)
    (hr : ∀ n ∈ providedNames r, "soundux".data <:+: n) : references m r = false := by
  cases href : references m r with
  | false => rfl
  | true =>
    exfalso
    simp only [references, List.any_eq_true, List.contains_iff_exists_mem_beq, beq_iff_eq] at href
    obtain ⟨n, hn, n', hn', hnn⟩ := href
    subst hnn
    obtain ⟨argument, ha, hinf⟩ := usedNames_occur m n hn
    have hfound : findsSoundux argument = true := by
      simp only [findsSoundux, decide_eq_true_eq]
      exact (hr n hn').trans hinf
    simp [isLeftOver, ha, hfound] at hm

theorem survives_iff (modules : List ModuleInfo) (idx : Nat) (m : ModuleInfo) :
    survives modules idx m = true
      ↔ m.index ≠ idx ∧ ∀ r ∈ modules, r.index = idx → references m r = false := by
  simp only [survives, Bool.not_eq_true', Bool.or_eq_false_iff, decide_eq_false_iff_not,
    List.any_eq_false, List.mem_filter, decide_eq_true_eq, and_imp, Bool.not_eq_true]

/-! ## The five modules of `setup` and the unloads of `destroy` -/

theorem expectedLoads_eq (ds : String) :
    expectedLoads ds
      = [nullSinkLoad, loopBackLoad ds, passthroughLoad, passthroughSinkLoad,
          passthroughLoopBackLoad] := rfl

theorem references_index (i j : Nat) (na nb : String × String) :
    references (loadedModule i na) (loadedModule j nb)
      = references (loadedModule 0 na) (loadedModule 0 nb) := rfl

theorem providedNames_index (i : Nat) (na : String × String) :
    providedNames (loadedModule i na) = providedNames (loadedModule 0 na) := rfl

theorem usedNames_index (i : Nat) (na : String × String) :
    usedNames (loadedModule i na) = usedNames (loadedModule 0 na) := rfl

/-- The devices of each of the five modules of `setup` have "soundux" in
their names. -/
theorem providedNames_expected (ds : String) (id : Nat) (na : String × String)
    (hna : na ∈ expectedLoads ds) :
    ∀ n ∈ providedNames (loadedModule id na), "soundux".data <:+: n := by
  rw [providedNames_index]
  simp only [expectedLoads_eq, List.mem_cons, List.mem_singleton, List.not_mem_nil,
    or_false] at hna
  rcases hna with rfl | rfl | rfl | rfl | rfl
  · decide
  · intro n hn; simp [providedNames, loadedModule, loopBackLoad] at hn
  · decide
  · decide
  · decide

theorem passthroughSink_references_nullSink (i j : Nat) :
    references (loadedModule i passthroughSinkLoad) (loadedModule j nullSinkLoad) = true := by
  rw [references_index]; decide

theorem passthroughLoopBack_references_passthrough (i j : Nat) :
    references (loadedModule i passthroughLoopBackLoad) (loadedModule j passthroughLoad)
      = true := by
  rw [references_index]; decide

theorem passthrough_references_nothing (i : Nat) (r : ModuleInfo) :
    references (loadedModule i passthroughLoad) r = false := by
  have : usedNames (loadedModule i passthroughLoad) = [] := by
    rw [usedNames_index]; decide
  simp [references, this]
/-- One unload of a root, on the modules `S` that were there before `setup`
and what is left of the new modules: `S` stays whole. -/
theorem unload_keeps_old (S N' : List ModuleInfo) (idx : Nat)
    (hfresh : ∀ m ∈ S, m.index ≠ idx)
    (hrefs : ∀ m ∈ S, ∀ r ∈ N', references m r = false) :
    (S ++ N').filter (survives (S ++ N') idx)
      = S ++ N'.filter (survives (S ++ N') idx) := by
  rw [List.filter_append]
  congr 1
  apply List.filter_eq_self.mpr
  intro m hm
  rw [survives_iff]
  refine ⟨hfresh m hm, ?_⟩
  intro r hr hidx
  rcases List.mem_append.mp hr with hrS | hrN
  · exact absurd hidx (hfresh r hrS)
  · exact hrefs m hm r hrN

/-- The three unloads of `destroy`, on the modules `S` that were there before
`setup` followed by the five modules of `setup`: exactly `S` is left. -/
theorem unload_roots (S : List ModuleInfo) (ds : String) (i1 i2 i3 i4 i5 : Nat)
    (hold : ∀ m ∈ S, isLeftOver m = false)
    (hfresh : ∀ m ∈ S, m.index ≠ i1 ∧ m.index ≠ i2 ∧ m.index ≠ i3) :
    (((S ++ List.zipWith loadedModule [i1, i2, i3, i4, i5] (expectedLoads ds)).filter
        (survives (S ++ List.zipWith loadedModule [i1, i2, i3, i4, i5] (expectedLoads ds))
          i1)).filter
        (survives ((S ++ List.zipWith loadedModule [i1, i2, i3, i4, i5]
          (expectedLoads ds)).filter
            (survives (S ++ List.zipWith loadedModule [i1, i2, i3, i4, i5] (expectedLoads ds))
              i1)) i2)).filter
        (survives (((S ++ List.zipWith loadedModule [i1, i2, i3, i4, i5]
          (expectedLoads ds)).filter
            (survives (S ++ List.zipWith loadedModule [i1, i2, i3, i4, i5] (expectedLoads ds))
              i1)).filter
            (survives ((S ++ List.zipWith loadedModule [i1, i2, i3, i4, i5]
              (expectedLoads ds)).filter
                (survives (S ++ List.zipWith loadedModule [i1, i2, i3, i4, i5]
                  (expectedLoads ds)) i1)) i2)) i3)
      = S := by
  have hN : List.zipWith loadedModule [i1, i2, i3, i4, i5] (expectedLoads ds)
      = [loadedModule i1 nullSinkLoad, loadedModule i2 (loopBackLoad ds),
          loadedModule i3 passthroughLoad, loadedModule i4 passthroughSinkLoad,
          loadedModule i5 passthroughLoopBackLoad] := rfl
  have hmemN : ∀ r ∈ List.zipWith loadedModule [i1, i2, i3, i4, i5] (expectedLoads ds),
      ∃ id na, na ∈ expectedLoads ds ∧ r = loadedModule id na := by
    intro r hr
    rw [hN] at hr
    simp only [List.mem_cons, List.mem_singleton, List.not_mem_nil, or_false] at hr
    rcases hr with rfl | rfl | rfl | rfl | rfl
    · exact ⟨_, _, by simp [expectedLoads_eq], rfl⟩
    · exact ⟨_, _, by simp [expectedLoads_eq], rfl⟩
    · exact ⟨_, _, by simp [expectedLoads_eq], rfl⟩
    · exact ⟨_, _, by simp [expectedLoads_eq], rfl⟩
    · exact ⟨_, _, by simp [expectedLoads_eq], rfl⟩
  have hrefs : ∀ m ∈ S, ∀ r ∈ List.zipWith loadedModule [i1, i2, i3, i4, i5] (expectedLoads ds),
      references m r = false := by
    intro m hm r hr
    obtain ⟨id, na, hna, rfl⟩ := hmemN r hr
    exact references_of_not_leftOver m _ (hold m hm) (providedNames_expected ds id na hna)
  generalize hNdef : List.zipWith loadedModule [i1, i2, i3, i4, i5] (expectedLoads ds) = N
    at hrefs hmemN hN ⊢
  rw [unload_keeps_old S N i1 (fun m hm => (hfresh m hm).1) hrefs]
  generalize hN1 : N.filter (survives (S ++ N) i1) = N1
  have hsub1 : ∀ r ∈ N1, r ∈ N := fun r hr => by
    rw [← hN1] at hr; exact (List.mem_filter.mp hr).1
  rw [unload_keeps_old S N1 i2 (fun m hm => (hfresh m hm).2.1)
    (fun m hm r hr => hrefs m hm r (hsub1 r hr))]
  generalize hN2 : N1.filter (survives (S ++ N1) i2) = N2
  have hsub2 : ∀ r ∈ N2, r ∈ N1 := fun r hr => by
    rw [← hN2] at hr; exact (List.mem_filter.mp hr).1
  rw [unload_keeps_old S N2 i3 (fun m hm => (hfresh m hm).2.2)
    (fun m hm r hr => hrefs m hm r (hsub1 r (hsub2 r hr)))]
  suffices hnil : N2.filter (survives (S ++ N2) i3) = [] by rw [hnil, List.append_nil]
  rw [List.eq_nil_iff_forall_not_mem]
  intro m hm
  obtain ⟨hm2, hs3⟩ := List.mem_filter.mp hm
  have hm1 := hsub2 m hm2
  have hs2 : survives (S ++ N1) i2 m = true := by
    rw [← hN2] at hm2; exact (List.mem_filter.mp hm2).2
  have hm0 := hsub1 m hm1
  have hs1 : survives (S ++ N) i1 m = true := by
    rw [← hN1] at hm1; exact (List.mem_filter.mp hm1).2
  rw [survives_iff] at hs1 hs2 hs3
  have hroot : loadedModule i1 nullSinkLoad ∈ S ++ N :=
    List.mem_append_right _ (by rw [hN]; simp)
  have hpass : loadedModule i3 passthroughLoad ∈ N := by rw [hN]; simp
  rw [hN] at hm0
  simp only [List.mem_cons, List.mem_singleton, List.not_mem_nil, or_false] at hm0
  rcases hm0 with rfl | rfl | rfl | rfl | rfl
  · exact hs1.1 rfl
  · exact hs2.1 rfl
  · exact hs3.1 rfl
  · have := hs1.2 _ hroot rfl
    rw [passthroughSink_references_nullSink] at this
    cases this
  · -- the passthrough null sink is still loaded when its index is unloaded,
    -- or it went with an earlier unload of the same index
    by_cases h31 : i3 = i1
    · have := hs1.2 (loadedModule i3 passthroughLoad) (List.mem_append_right _ hpass) h31
      rw [passthroughLoopBack_references_passthrough] at this
      cases this
    · have hp1 : loadedModule i3 passthroughLoad ∈ N1 := by
        rw [← hN1]
        refine List.mem_filter.mpr ⟨hpass, ?_⟩
        rw [survives_iff]
        exact ⟨h31, fun r _ _ => passthrough_references_nothing i3 r⟩
      by_cases h32 : i3 = i2
      · have := hs2.2 (loadedModule i3 passthroughLoad) (List.mem_append_right _ hp1) h32
        rw [passthroughLoopBack_references_passthrough] at this
        cases this
      · have hp2 : loadedModule i3 passthroughLoad ∈ N2 := by
          rw [← hN2]
          refine List.mem_filter.mpr ⟨hp1, ?_⟩
          rw [survives_iff]
          exact ⟨h32, fun r _ _ => passthrough_references_nothing i3 r⟩
        have := hs3.2 (loadedModule i3 passthroughLoad) (List.mem_append_right _ hp2) rfl
        rw [passthroughLoopBack_references_passthrough] at this
        cases this

/-! ## Unload and load requests in the traces -/

theorem unloadsIn_append (l1 l2 : List Request) :
    unloadsIn (l1 ++ l2) = unloadsIn l1 ++ unloadsIn l2 :=
  List.filterMap_append _ _ _

theorem loadsIn_append (l1 l2 : List Request) :
    loadsIn (l1 ++ l2) = loadsIn l1 ++ loadsIn l2 :=
  List.filterMap_append _ _ _

theorem unloadsIn_unloads (l : List ModuleInfo) :
    unloadsIn (l.map fun m => Request.unloadModule m.index) = l.map fun m => m.index := by
  induction l with
  | nil => rfl
  | cons m l ih =>
    simp only [unloadsIn, List.map_cons, List.filterMap_cons] at ih ⊢
    rw [ih]

theorem loadsIn_unloads (l : List ModuleInfo) :
    loadsIn (l.map fun m => Request.unloadModule m.index) = [] := by
  induction l with
  | nil => rfl
  | cons m l ih =>
    simp only [loadsIn, List.map_cons, List.filterMap_cons] at ih ⊢
    rw [ih]

theorem unloadsIn_loads (l : List (String × String)) :
    unloadsIn (l.map fun na => Request.loadModule na.1 na.2) = [] := by
  induction l with
  | nil => rfl
  | cons m l ih =>
    simp only [unloadsIn, List.map_cons, List.filterMap_cons] at ih ⊢
    rw [ih]

theorem loadsIn_unloadLeftOvers (srv : Server) :
    loadsIn (unloadLeftOvers srv).log = loadsIn srv.log := by
  rw [unloadLeftOvers_log, loadsIn_append, loadsIn_append, loadsIn_unloads]
  simp [loadsIn]

theorem serverBeforeLoads_log (srv : Server) :
    (serverBeforeLoads srv).log
      = (unloadLeftOvers srv).log
        ++ [.getServerInfo, .getSinkInputInfoList, .getSourceOutputInfoList] := rfl

theorem setupReplies_list (pa : PulseAudio) (srv : Server) :
    setupReplies pa srv
      = [srv.assignIndex nullSinkLoad.1 nullSinkLoad.2 % 4294967296,
          srv.assignIndex (loopBackLoad (sourceForSetup pa srv)).1
            (loopBackLoad (sourceForSetup pa srv)).2 % 4294967296,
          srv.assignIndex passthroughLoad.1 passthroughLoad.2 % 4294967296,
          srv.assignIndex passthroughSinkLoad.1 passthroughSinkLoad.2 % 4294967296,
          srv.assignIndex passthroughLoopBackLoad.1 passthroughLoopBackLoad.2 % 4294967296] :=
  rfl

/-- A module stays through the callbacks of `unloadLeftOvers` when no leftover
among the records has its index and it references no module with the index of
such a leftover. -/
theorem foldl_unloadLeftOversCallback_keeps (l : List ModuleInfo) (s : Server)
    (m : ModuleInfo) (hm : m ∈ s.modules)
    (hfree : ∀ r ∈ l, isLeftOver r = true →
      m.index ≠ r.index ∧ ∀ x ∈ s.modules, x.index = r.index → references m x = false) :
    m ∈ ((l.map some).foldl unloadLeftOversCallback s).modules := by
  induction l generalizing s with
  | nil => exact hm
  | cons r l ih =>
    rw [List.map_cons, List.foldl_cons]
    by_cases hr : isLeftOver r = true
    · have hstep : unloadLeftOversCallback s (some r) = s.unloadModule r.index := by
        unfold isLeftOver at hr
        unfold unloadLeftOversCallback
        cases ha : r.argument with
        | none => simp [ha] at hr
        | some a =>
          simp only [ha] at hr ⊢
          simp [hr]
      rw [hstep]
      obtain ⟨h1, h2⟩ := hfree r (List.mem_cons_self _ _) hr
      apply ih
      · exact List.mem_filter.mpr ⟨hm, (survives_iff _ _ _).mpr ⟨h1, h2⟩⟩
      · intro r' hr' hl
        obtain ⟨h3, h4⟩ := hfree r' (List.mem_cons_of_mem _ hr') hl
        exact ⟨h3, fun x hx => h4 x (unloadModule_mem hx).1⟩
    · have hr' : isLeftOver r = false := by simpa using hr
      have hstep : unloadLeftOversCallback s (some r) = s := by
        unfold isLeftOver at hr'
        unfold unloadLeftOversCallback
        cases ha : r.argument with
        | none => simp only [ha]
        | some a =>
          simp only [ha] at hr' ⊢
          simp [hr']
      rw [hstep]
      exact ih s hm (fun r' hr'' hl => hfree r' (List.mem_cons_of_mem _ hr'') hl)

/-! ## Every five ids can be the server's answers -/

theorem loopBackLoad_head (ds : String) : (loopBackLoad ds).2.data.head? = some 'r' := by
  simp [loopBackLoad, String.data_append]

/-- Every five 32-bit ids are the answers of some server to the five load
requests of `setup`. -/
theorem setupReplies_any (pa : PulseAudio) (srv : Server) (i1 i2 i3 i4 i5 : Nat)
    (h1 : i1 < 4294967296) (h2 : i2 < 4294967296) (h3 : i3 < 4294967296)
    (h4 : i4 < 4294967296) (h5 : i5 < 4294967296) :
    setupReplies pa
      { srv with
        assignIndex := fun name argument =>
          if (name, argument) = nullSinkLoad then i1
          else if (name, argument) = passthroughLoad then i3
          else if (name, argument) = passthroughSinkLoad then i4
          else if (name, argument) = passthroughLoopBackLoad then i5
          else i2 }
      = [i1, i2, i3, i4, i5] := by
  have hne : ∀ na : String × String, na.2.data.head? = some 's' →
      ¬ ((loopBackLoad (sourceForSetup pa srv)).1, (loopBackLoad (sourceForSetup pa srv)).2) = na := by
    intro na hna heq
    have := loopBackLoad_head (sourceForSetup pa srv)
    rw [show (loopBackLoad (sourceForSetup pa srv)).2 = na.2 from by rw [← heq]] at this
    rw [hna] at this
    cases this
  have hds : sourceForSetup pa
      { srv with
        assignIndex := fun name argument =>
          if (name, argument) = nullSinkLoad then i1
          else if (name, argument) = passthroughLoad then i3
          else if (name, argument) = passthroughSinkLoad then i4
          else if (name, argument) = passthroughLoopBackLoad then i5
          else i2 } = sourceForSetup pa srv := rfl
  rw [setupReplies_list, hds]
  simp only [Prod.mk.eta]
  have e1 := hne nullSinkLoad (by decide)
  have e3 := hne passthroughLoad (by decide)
  have e4 := hne passthroughSinkLoad (by decide)
  have e5 := hne passthroughLoopBackLoad (by decide)
  simp only [Prod.mk.eta] at e1 e3 e4 e5
  have d31 : ¬ passthroughLoad = nullSinkLoad := by decide
  have d41 : ¬ passthroughSinkLoad = nullSinkLoad := by decide
  have d43 : ¬ passthroughSinkLoad = passthroughLoad := by decide
  have d51 : ¬ passthroughLoopBackLoad = nullSinkLoad := by decide
  have d53 : ¬ passthroughLoopBackLoad = passthroughLoad := by decide
  have d54 : ¬ passthroughLoopBackLoad = passthroughSinkLoad := by decide
  simp only [e1, e3, e4, e5, d31, d41, d43, d51, d53, d54, if_true, if_false]
  rw [Nat.mod_eq_of_lt h1, Nat.mod_eq_of_lt h2, Nat.mod_eq_of_lt h3, Nat.mod_eq_of_lt h4,
    Nat.mod_eq_of_lt h5]

/-! ## Where the enumerations return -/

/-- With the enumerations returning, a second call with the same record returns
what the first returned and leaves backend and streams as the first left
them. -/
theorem passthroughFromPure_idempotent (app : PlaybackApp) (pa : PulseAudio) (srv : Server) :
    (∃ r pa1 srv1 srv2,
        passthroughFromPure (some app) pa srv = .ok (r, pa1, srv1)
        ∧ passthroughFromPure (some app) pa1 srv1 = .ok (r, pa1, srv2)
        ∧ srv2.sinkInputs = srv1.sinkInputs ∧ srv2.sourceOutputs = srv1.sourceOutputs)
    ∧ (∀ t, pa.movedPassthroughApplication = some t → t.name = app.name →
        passthroughFromPure (some app) pa srv = .ok (true, pa, srv)) := by
  refine ⟨?_, fun t hm hn => passthroughFromPure_same app t pa srv hm hn⟩
  by_cases hex : ∃ t, pa.movedPassthroughApplication = some t ∧ t.name = app.name
  · obtain ⟨t, hm, hn⟩ := hex
    exact ⟨true, pa, srv, srv, passthroughFromPure_same app t pa srv hm hn,
      passthroughFromPure_same app t pa srv hm hn, rfl, rfl⟩
  · have hnew : ∀ t, pa.movedPassthroughApplication = some t → t.name ≠ app.name :=
      fun t hm hn => hex ⟨t, hm, hn⟩
    have hfirst := passthroughFromPure_new app pa srv hnew
    cases hL : (passthroughLoop app.name (getPlaybackAppsPure (stopPassthroughPure pa srv).2.2).1
        (getPlaybackAppsPure (stopPassthroughPure pa srv).2.2).2).1 with
    | true =>
      rw [hL] at hfirst
      simp only [if_true] at hfirst
      exact ⟨true, _, _, _, hfirst, passthroughFromPure_same app app _ _ rfl rfl, rfl, rfl⟩
    | false =>
      rw [hL] at hfirst
      simp only [Bool.false_eq_true, if_false] at hfirst
      have hne : (getPlaybackAppsPure srv).1 ≠ [] := by
        intro hnil
        have hk := keys_after_stop pa srv
        rw [hnil, List.map_nil, List.map_eq_nil_iff] at hk
        rw [hk] at hL
        simp [passthroughLoop] at hL
      have hidle : (stopPassthroughPure pa srv).2.1.movedPassthroughApplication = none := by
        rw [stopPassthroughPure_moved]; simp [hne]
      have hnew2 : ∀ t, (stopPassthroughPure pa srv).2.1.movedPassthroughApplication = some t →
          t.name ≠ app.name := by
        intro t ht; rw [hidle] at ht; cases ht
      have hsecond := passthroughFromPure_new app (stopPassthroughPure pa srv).2.1
        (passthroughLoop app.name (getPlaybackAppsPure (stopPassthroughPure pa srv).2.2).1
          (getPlaybackAppsPure (stopPassthroughPure pa srv).2.2).2).2 hnew2
      rw [stopPassthroughPure_idle _ _ hidle] at hsecond
      have hagain := passthroughLoop_again app.name (stopPassthroughPure pa srv).2.2
      rw [hL] at hagain
      simp only [hagain.1, Bool.false_eq_true, if_false] at hsecond
      refine ⟨false, _, _, _, hfirst, hsecond, hagain.2, ?_⟩
      exact ((getPlaybackAppsPure_step _).andThen (passthroughLoop_step _ _ _)).sourceOutputs_eq

/-- With the enumerations returning: the round trip of `inputSoundTo` and
`stopSoundInput` for a listed record that is not already the target by
name. -/
theorem inputSoundToPure_reverts (app : RecordingApp) (pa : PulseAudio)
    (srv : Server)
    (hlisted : app ∈ (getRecordingAppsPure srv).1)
    (hnew : ∀ t, pa.movedApplication = some t → t.name ≠ app.name)
    (hacc : ∀ i, srv.accepts (.moveSourceOutputByIndex i app.source) = true) :
    ∃ pa1 srv1 srv2,
      inputSoundToPure (some app) pa srv = (true, pa1, srv1)
      ∧ stopSoundInputPure pa1 srv1 = (true, { pa with movedApplication := none }, srv2)
      ∧ app ∈ (getRecordingAppsPure srv2).1
      ∧ ∀ o ∈ srv2.sourceOutputs, capturingSourceOutput o = true →
          nameOf o.proplist = app.name → o.source = app.source := by
  have hstepA : SourceStep srv
      (inputSoundLoop app.name (getRecordingAppsPure (stopSoundInputPure pa srv).2.2).1
        (getRecordingAppsPure (stopSoundInputPure pa srv).2.2).2) :=
    ((stopSoundInputPure_step pa srv).followedBy (getRecordingAppsPure_step _)).followedBy
      (inputSoundLoop_step _ _ _)
  generalize hA : inputSoundLoop app.name (getRecordingAppsPure (stopSoundInputPure pa srv).2.2).1
    (getRecordingAppsPure (stopSoundInputPure pa srv).2.2).2 = srvA at hstepA
  have hloop := stopSoundInputLoop_accepted app (getRecordingAppsPure srvA).1 true
    (getRecordingAppsPure srvA).2
    (fun i => by rw [(hstepA.followedBy (getRecordingAppsPure_step srvA)).acceptsAlike]; exact hacc i)
  have hso : (getRecordingAppsPure srvA).2.sourceOutputs = srvA.sourceOutputs := rfl
  rw [hso] at hloop
  refine ⟨{ pa with movedApplication := some app }, srvA,
    (stopSoundInputLoop app (getRecordingAppsPure srvA).1 true (getRecordingAppsPure srvA).2).2,
    ?_, ?_, ?_, ?_⟩
  · rw [inputSoundToPure_new app pa srv hnew, hA]
  · unfold stopSoundInputPure
    simp only [hloop.1]
  · rw [getRecordingAppsPure_fst] at hlisted
    obtain ⟨o0, ho0, rfl⟩ := List.mem_map.mp hlisted
    obtain ⟨ho0, hc0⟩ := List.mem_filter.mp ho0
    have hmem : eraseSource o0 ∈ srvA.sourceOutputs.map eraseSource := by
      rw [hstepA.erased_eq]; exact List.mem_map.mpr ⟨o0, ho0, rfl⟩
    obtain ⟨oA, hoA, he⟩ := List.mem_map.mp hmem
    have hcap := capturing_of_erased he
    have hidx := index_mem_picked srvA (recordingRecord o0).name oA hoA
      (by rw [hcap.1]; exact hc0) hcap.2
    have hfinal : o0 ∈ (stopSoundInputLoop (recordingRecord o0) (getRecordingAppsPure srvA).1 true
        (getRecordingAppsPure srvA).2).2.sourceOutputs := by
      rw [hloop.2]
      refine List.mem_map.mpr ⟨oA, hoA, ?_⟩
      rw [setSourceIn_of_mem hidx]
      exact restore_source he
    rw [getRecordingAppsPure_fst]
    exact List.mem_map.mpr ⟨o0, List.mem_filter.mpr ⟨hfinal, hc0⟩, rfl⟩
  · intro o ho hc hn
    rw [hloop.2] at ho
    obtain ⟨oA, hoA, rfl⟩ := List.mem_map.mp ho
    have hsame : capturingSourceOutput (setSourceIn
          ((List.filter (fun p => decide (p.name = app.name)) (getRecordingAppsPure srvA).1).map
            fun p => p.id) app.source oA) = capturingSourceOutput oA
        ∧ nameOf (setSourceIn
          ((List.filter (fun p => decide (p.name = app.name)) (getRecordingAppsPure srvA).1).map
            fun p => p.id) app.source oA).proplist = nameOf oA.proplist := by
      unfold setSourceIn; split <;> exact ⟨rfl, rfl⟩
    rw [hsame.1] at hc
    rw [hsame.2] at hn
    rw [setSourceIn_of_mem (index_mem_picked srvA app.name oA hoA hc hn)]

/-- With the enumerations returning: the modules after `destroy` are those the
cleanup of `setup` left of the initial ones, and `destroy` unloads the three
roots in order. -/
theorem destroyPure_after_setup (pa pa1 pa2 : PulseAudio) (srv srv1 srv2 : Server)
    (hsetup : setupPure pa srv = .ok (pa1, srv1))
    (hfresh : ∀ m ∈ srv.modules,
      m.index ≠ pa1.nullSink ∧ m.index ≠ pa1.loopBack ∧ m.index ≠ pa1.passthrough)
    (hhandles : pa2.nullSink = pa1.nullSink ∧ pa2.loopBack = pa1.loopBack
      ∧ pa2.passthrough = pa1.passthrough)
    (hmodules : srv2.modules = srv1.modules) :
    (destroyPure pa2 srv2).2.modules = (unloadLeftOvers srv).modules
    ∧ ((∀ m ∈ srv.modules, isLeftOver m = false) →
        (destroyPure pa2 srv2).2.modules = srv.modules)
    ∧ unloadsIn (destroyPure pa2 srv2).2.log
        = unloadsIn srv2.log ++ [pa2.nullSink, pa2.loopBack, pa2.passthrough] := by
  have hspec := setupPure_spec pa srv
  cases hfn : firstNegative (setupReplies pa srv) with
  | some k =>
    rw [hfn] at hspec
    obtain ⟨srv', h1, _⟩ := hspec
    rw [h1] at hsetup
    cases hsetup
  | none =>
    rw [hfn] at hspec
    simp only at hspec
    rw [hspec] at hsetup
    simp only [Except.ok.injEq, Prod.mk.injEq] at hsetup
    obtain ⟨hpa1, hsrv1⟩ := hsetup
    have hkept := (stopSoundInputPure_kept pa2 srv2).next
      (stopPassthroughPure_kept (stopSoundInputPure pa2 srv2).2.1 (stopSoundInputPure pa2 srv2).2.2)
    have hmods : (stopPassthroughPure (stopSoundInputPure pa2 srv2).2.1
          (stopSoundInputPure pa2 srv2).2.2).2.2.modules
        = (unloadLeftOvers srv).modules
          ++ List.zipWith loadedModule
              [srv.assignIndex nullSinkLoad.1 nullSinkLoad.2 % 4294967296,
                srv.assignIndex (loopBackLoad (sourceForSetup pa srv)).1
                  (loopBackLoad (sourceForSetup pa srv)).2 % 4294967296,
                srv.assignIndex passthroughLoad.1 passthroughLoad.2 % 4294967296,
                srv.assignIndex passthroughSinkLoad.1 passthroughSinkLoad.2 % 4294967296,
                srv.assignIndex passthroughLoopBackLoad.1 passthroughLoopBackLoad.2
                  % 4294967296]
              (expectedLoads (sourceForSetup pa srv)) := by
      rw [hkept.modules_eq, hmodules, ← hsrv1, ← setupReplies_list]
    have h1 : pa2.nullSink = srv.assignIndex nullSinkLoad.1 nullSinkLoad.2 % 4294967296 := by
      rw [hhandles.1, ← hpa1]; rfl
    have h2 : pa2.loopBack = srv.assignIndex (loopBackLoad (sourceForSetup pa srv)).1
        (loopBackLoad (sourceForSetup pa srv)).2 % 4294967296 := by
      rw [hhandles.2.1, ← hpa1]; rfl
    have h3 : pa2.passthrough
        = srv.assignIndex passthroughLoad.1 passthroughLoad.2 % 4294967296 := by
      rw [hhandles.2.2, ← hpa1]; rfl
    have hfresh2 : ∀ m ∈ (unloadLeftOvers srv).modules,
        m.index ≠ pa2.nullSink ∧ m.index ≠ pa2.loopBack ∧ m.index ≠ pa2.passthrough := by
      intro m hm
      rw [hhandles.1, hhandles.2.1, hhandles.2.2]
      exact hfresh m (unloadLeftOvers_mem hm).1
    have hfinal : (destroyPure pa2 srv2).2.modules = (unloadLeftOvers srv).modules := by
      rw [destroyPure_eq]
      simp only [Server.unloadModule]
      rw [hmods]
      rw [h1, h2, h3] at hfresh2 ⊢
      exact unload_roots (unloadLeftOvers srv).modules (sourceForSetup pa srv) _ _ _ _ _
        (fun m hm => (unloadLeftOvers_mem hm).2) hfresh2
    refine ⟨hfinal, ?_, ?_⟩
    · intro hclean
      rw [hfinal, unloadLeftOvers_nothing srv hclean]
    · rw [destroyPure_eq]
      simp only [unloadModule_log, unloadsIn_append, hkept.unloads_eq]
      simp [unloadsIn]

/-- With the snapshots returning, the trace of `setup` is the trace of the
cleanup followed by requests with no unload among them. -/
theorem setupPure_trace (pa : PulseAudio) (srv : Server) :
    ∃ rest, (serverAfter (setupPure pa srv)).log = (unloadLeftOvers srv).log ++ rest
      ∧ unloadsIn rest = []
      ∧ loadsIn (serverAfter (setupPure pa srv)).log = loadsIn srv.log ++ loadsIn rest := by
  have hspec := setupPure_spec pa srv
  cases hfn : firstNegative (setupReplies pa srv) with
  | none =>
    rw [hfn] at hspec
    simp only at hspec
    refine ⟨[.getServerInfo, .getSinkInputInfoList, .getSourceOutputInfoList]
      ++ (expectedLoads (sourceForSetup pa srv)).map
          (fun na => Request.loadModule na.1 na.2), ?_, ?_, ?_⟩
    · rw [hspec]; simp [serverAfter, serverBeforeLoads_log]
    · rw [unloadsIn_append, unloadsIn_loads]; simp [unloadsIn]
    · rw [hspec]
      simp only [serverAfter, serverBeforeLoads_log, loadsIn_append, loadsIn_unloadLeftOvers,
        List.append_assoc]
  | some k =>
    rw [hfn] at hspec
    obtain ⟨srv1, h1, h2⟩ := hspec
    refine ⟨[.getServerInfo, .getSinkInputInfoList, .getSourceOutputInfoList]
      ++ ((expectedLoads (sourceForSetup pa srv)).take (k + 1)).map
          (fun na => Request.loadModule na.1 na.2), ?_, ?_, ?_⟩
    · rw [h1]; simp [serverAfter, h2, serverBeforeLoads_log]
    · rw [unloadsIn_append, unloadsIn_loads]; simp [unloadsIn]
    · rw [h1]
      simp only [serverAfter, h2, serverBeforeLoads_log, loadsIn_append,
        loadsIn_unloadLeftOvers, List.append_assoc]

/-! ## The functions on servers whose records can be read -/

theorem SourceStep.keepsRecording {a b : Server} (h : SourceStep a b)
    (hr : RecordingReadable a) : RecordingReadable b := by
  intro o ho hc
  have hmem : eraseSource o ∈ a.sourceOutputs.map eraseSource := by
    rw [← h.erased_eq]; exact List.mem_map.mpr ⟨o, ho, rfl⟩
  obtain ⟨o1, ho1, he⟩ := List.mem_map.mp hmem
  have hcap := capturing_of_erased he
  have hp : o1.proplist = o.proplist := by
    have := congrArg SourceOutputInfo.proplist he
    simpa [eraseSource] using this
  rw [← hp]
  exact hr o1 ho1 (hcap.1.trans hc)

theorem SourceStep.keepsPlayback {a b : Server} (h : SourceStep a b)
    (hr : PlaybackReadable a) : PlaybackReadable b := by
  intro i hi
  rw [h.sinkInputs_eq] at hi
  exact hr i hi

theorem SinkStep.leavesRecording {a b : Server} (h : SinkStep a b)
    (hr : RecordingReadable a) : RecordingReadable b := by
  intro o ho
  rw [h.sourceOutputs_eq] at ho
  exact hr o ho

/-- `stopPassthrough` returns when it has no target, or when the enumeration
it asks for returns; it is then `stopPassthroughPure`. -/
theorem stopPassthrough_returns (pa : PulseAudio) (srv : Server)
    (h : pa.movedPassthroughApplication.isSome = true → PlaybackReadable srv) :
    stopPassthrough pa srv = .ok (stopPassthroughPure pa srv) := by
  unfold stopPassthrough stopPassthroughPure
  cases hm : pa.movedPassthroughApplication with
  | none => rfl
  | some moved =>
    simp only [getPlaybackApps_readable srv (h (by rw [hm]; rfl))]
    rcases getPlaybackAppsPure srv with ⟨_ | ⟨app, rest⟩, srv1⟩
    · rfl
    · rfl

/-- Where `stopPassthrough` returns it is `stopPassthroughPure`, and with a
target set the records can be read. -/
theorem stopPassthrough_ok {pa : PulseAudio} {srv : Server} {r : Bool × PulseAudio × Server}
    (h : stopPassthrough pa srv = .ok r) :
    r = stopPassthroughPure pa srv
      ∧ (pa.movedPassthroughApplication.isSome = true → PlaybackReadable srv) := by
  by_cases hr : pa.movedPassthroughApplication.isSome = true → PlaybackReadable srv
  · rw [stopPassthrough_returns pa srv hr] at h
    exact ⟨(Except.ok.inj h).symm, hr⟩
  · exfalso
    push_neg at hr
    obtain ⟨hs, hn⟩ := hr
    obtain ⟨e, he⟩ := getPlaybackApps_unreadable srv hn
    obtain ⟨moved, hm⟩ := Option.isSome_iff_exists.mp hs
    unfold stopPassthrough at h
    rw [hm] at h
    simp only [he] at h
    cases h

/-- On a server whose playback records can be read `passthroughFrom` is
`passthroughFromPure`. -/
theorem passthroughFrom_readable (app : Option PlaybackApp) (pa : PulseAudio) (srv : Server)
    (h : PlaybackReadable srv) :
    passthroughFrom app pa srv = passthroughFromPure app pa srv := by
  have h1 := (stopPassthroughPure_step pa srv).readable h
  unfold passthroughFrom passthroughFromPure
  rw [stopPassthrough_returns pa srv (fun _ => h)]
  rcases hs : stopPassthroughPure pa srv with ⟨b, pa1, srv1⟩
  rw [hs] at h1
  simp only [getPlaybackApps_readable srv1 h1]

/-- A call of `passthroughFrom` that gets past its first condition and
returns has read the playback records. -/
theorem passthroughFrom_ok_new (app : PlaybackApp) (pa : PulseAudio) (srv : Server)
    (x : Bool × PulseAudio × Server)
    (hnew : ∀ t, pa.movedPassthroughApplication = some t → t.name ≠ app.name)
    (h : passthroughFrom (some app) pa srv = .ok x) : PlaybackReadable srv := by
  by_contra hr
  obtain ⟨e, he⟩ := getPlaybackApps_unreadable srv hr
  unfold passthroughFrom at h
  rw [alreadyMoved_new app pa hnew] at h
  simp only at h
  cases hst : stopPassthrough pa srv with
  | error e1 => rw [hst] at h; cases h
  | ok r =>
    obtain ⟨hpure, hread⟩ := stopPassthrough_ok hst
    cases hm : pa.movedPassthroughApplication with
    | some moved => exact hr (hread (by rw [hm]; rfl))
    | none =>
      rw [stopPassthroughPure_idle pa srv hm] at hpure
      rw [hst, hpure] at h
      simp only [he] at h
      cases h

/-- Every call of `passthroughFromPure` with a record is a run of sink-input
requests. -/
theorem passthroughFromPure_step (app : PlaybackApp) (pa pa1 : PulseAudio) (srv srv1 : Server)
    (r : Bool) (h : passthroughFromPure (some app) pa srv = .ok (r, pa1, srv1)) :
    SinkStep srv srv1 := by
  by_cases hex : ∃ t, pa.movedPassthroughApplication = some t ∧ t.name = app.name
  · obtain ⟨t, hm, hn⟩ := hex
    rw [passthroughFromPure_same app t pa srv hm hn] at h
    simp only [Except.ok.injEq, Prod.mk.injEq] at h
    rw [← h.2.2]
    exact SinkStep.same srv
  · have hnew : ∀ t, pa.movedPassthroughApplication = some t → t.name ≠ app.name :=
      fun t hm hn => hex ⟨t, hm, hn⟩
    rw [passthroughFromPure_new app pa srv hnew] at h
    simp only [Except.ok.injEq, Prod.mk.injEq] at h
    rw [← h.2.2]
    exact ((stopPassthroughPure_step pa srv).andThen (getPlaybackAppsPure_step _)).andThen
      (passthroughLoop_step _ _ _)

/-- `stopSoundInput` returns when it has no target, or when the enumeration
it asks for returns; it is then `stopSoundInputPure`. -/
theorem stopSoundInput_returns (pa : PulseAudio) (srv : Server)
    (h : pa.movedApplication.isSome = true → RecordingReadable srv) :
    stopSoundInput pa srv = .ok (stopSoundInputPure pa srv) := by
  unfold stopSoundInput stopSoundInputPure
  cases hm : pa.movedApplication with
  | none => rfl
  | some moved =>
    simp only [getRecordingApps_readable srv (h (by rw [hm]; rfl))]

/-- Where `stopSoundInput` returns it is `stopSoundInputPure`, and with a
target set the records can be read. -/
theorem stopSoundInput_ok {pa : PulseAudio} {srv : Server} {r : Bool × PulseAudio × Server}
    (h : stopSoundInput pa srv = .ok r) :
    r = stopSoundInputPure pa srv
      ∧ (pa.movedApplication.isSome = true → RecordingReadable srv) := by
  by_cases hr : pa.movedApplication.isSome = true → RecordingReadable srv
  · rw [stopSoundInput_returns pa srv hr] at h
    exact ⟨(Except.ok.inj h).symm, hr⟩
  · exfalso
    push_neg at hr
    obtain ⟨hs, hn⟩ := hr
    obtain ⟨e, he⟩ := getRecordingApps_unreadable srv hn
    obtain ⟨moved, hm⟩ := Option.isSome_iff_exists.mp hs
    unfold stopSoundInput at h
    rw [hm] at h
    simp only [he] at h
    cases h

/-- On a server whose recording records can be read `inputSoundTo` returns,
and what it returns is `inputSoundToPure`. -/
theorem inputSoundTo_readable (app : Option RecordingApp) (pa : PulseAudio) (srv : Server)
    (h : RecordingReadable srv) :
    inputSoundTo app pa srv = .ok (inputSoundToPure app pa srv) := by
  have h1 := (stopSoundInputPure_step pa srv).keepsRecording h
  unfold inputSoundTo inputSoundToPure
  cases app with
  | none => rfl
  | some app =>
    simp only [stopSoundInput_returns pa srv (fun _ => h)]
    rcases hs : stopSoundInputPure pa srv with ⟨b, pa1, srv1⟩
    rw [hs] at h1
    simp only [getRecordingApps_readable srv1 h1]
    split <;> rfl

/-- Every call of `inputSoundToPure` is a run of source-output requests. -/
theorem inputSoundToPure_step (app : Option RecordingApp) (pa : PulseAudio) (srv : Server) :
    SourceStep srv (inputSoundToPure app pa srv).2.2 := by
  unfold inputSoundToPure
  cases app with
  | none => exact SourceStep.unchanged srv
  | some app =>
    simp only
    split
    · exact SourceStep.unchanged srv
    · exact ((stopSoundInputPure_step pa srv).followedBy (getRecordingAppsPure_step _)).followedBy
        (inputSoundLoop_step _ _ _)

theorem unloadLeftOvers_streams (srv : Server) :
    (unloadLeftOvers srv).sinkInputs = srv.sinkInputs
    ∧ (unloadLeftOvers srv).sourceOutputs = srv.sourceOutputs := by
  rw [unloadLeftOvers_eq]
  exact ⟨(foldl_unloadLeftOversCallback srv.modules _).2.2.2.1,
    (foldl_unloadLeftOversCallback srv.modules _).2.2.2.2.1⟩

/-- The server when `setup` takes its snapshots has the streams `setup`
started with. -/
theorem snapshot_streams (pa : PulseAudio) (srv : Server) :
    (fetchDefaultSource pa (unloadLeftOvers srv)).2.sinkInputs = srv.sinkInputs
    ∧ (fetchDefaultSource pa (unloadLeftOvers srv)).2.sourceOutputs = srv.sourceOutputs :=
  unloadLeftOvers_streams srv

/-- When the two snapshots return `setup` is `setupPure`. -/
theorem setup_of_snapshots (pa : PulseAudio) (srv : Server)
    (hp : PlaybackReadable srv) (hr : RecordingReadable srv) :
    setup pa srv = setupPure pa srv := by
  have hs := snapshot_streams pa srv
  have hp1 : PlaybackReadable (fetchDefaultSource pa (unloadLeftOvers srv)).2 := by
    intro i hi; rw [hs.1] at hi; exact hp i hi
  have hr1 : RecordingReadable
      (getPlaybackAppsPure (fetchDefaultSource pa (unloadLeftOvers srv)).2).2 := by
    intro o ho
    have : (getPlaybackAppsPure (fetchDefaultSource pa (unloadLeftOvers srv)).2).2.sourceOutputs
        = srv.sourceOutputs := hs.2
    rw [this] at ho; exact hr o ho
  unfold setup setupPure
  have e1 : fetchDefaultSource pa (unloadLeftOvers srv)
      = ((fetchDefaultSource pa (unloadLeftOvers srv)).1,
         (fetchDefaultSource pa (unloadLeftOvers srv)).2) := rfl
  rw [e1]
  simp only []
  rw [getPlaybackApps_readable _ hp1]
  have e2 : ∀ s, getPlaybackAppsPure s = ((getPlaybackAppsPure s).1, (getPlaybackAppsPure s).2) :=
    fun _ => rfl
  rw [e2]
  simp only []
  rw [getRecordingApps_readable _ hr1]

/-- A playback snapshot that faults ends `setup` after the cleanup and two
more requests. -/
theorem setup_playback_fault (pa : PulseAudio) (srv : Server) (hp : ¬ PlaybackReadable srv) :
    ∃ e, setup pa srv
      = .error (e, { unloadLeftOvers srv with
          log := (unloadLeftOvers srv).log ++ [.getServerInfo, .getSinkInputInfoList] }) := by
  have hs := snapshot_streams pa srv
  have hp1 : ¬ PlaybackReadable (fetchDefaultSource pa (unloadLeftOvers srv)).2 := by
    intro h; apply hp; intro i hi; rw [← hs.1] at hi; exact h i hi
  obtain ⟨e, he⟩ := getPlaybackApps_unreadable _ hp1
  refine ⟨e, ?_⟩
  unfold setup
  have e1 : fetchDefaultSource pa (unloadLeftOvers srv)
      = ((fetchDefaultSource pa (unloadLeftOvers srv)).1,
         (fetchDefaultSource pa (unloadLeftOvers srv)).2) := rfl
  rw [e1]
  simp only []
  rw [he]
  simp [fetchDefaultSource]

/-- A recording snapshot that faults ends `setup` after the cleanup and three
more requests. -/
theorem setup_recording_fault (pa : PulseAudio) (srv : Server)
    (hp : PlaybackReadable srv) (hr : ¬ RecordingReadable srv) :
    ∃ e, setup pa srv
      = .error (e, { unloadLeftOvers srv with
          log := (unloadLeftOvers srv).log
            ++ [.getServerInfo, .getSinkInputInfoList, .getSourceOutputInfoList] }) := by
  have hs := snapshot_streams pa srv
  have hp1 : PlaybackReadable (fetchDefaultSource pa (unloadLeftOvers srv)).2 := by
    intro i hi; rw [hs.1] at hi; exact hp i hi
  have hr1 : ¬ RecordingReadable
      (getPlaybackAppsPure (fetchDefaultSource pa (unloadLeftOvers srv)).2).2 := by
    intro h; apply hr; intro o ho
    have : (getPlaybackAppsPure (fetchDefaultSource pa (unloadLeftOvers srv)).2).2.sourceOutputs
        = srv.sourceOutputs := hs.2
    rw [← this] at ho; exact h o ho
  obtain ⟨e, he⟩ := getRecordingApps_unreadable _ hr1
  refine ⟨e, ?_⟩
  unfold setup
  have e1 : fetchDefaultSource pa (unloadLeftOvers srv)
      = ((fetchDefaultSource pa (unloadLeftOvers srv)).1,
         (fetchDefaultSource pa (unloadLeftOvers srv)).2) := rfl
  rw [e1]
  simp only []
  rw [getPlaybackApps_readable _ hp1]
  have e2 : ∀ s, getPlaybackAppsPure s = ((getPlaybackAppsPure s).1, (getPlaybackAppsPure s).2) :=
    fun _ => rfl
  rw [e2]
  simp only []
  rw [he]
  simp [fetchDefaultSource, getPlaybackAppsPure]

/-- Where `setup` returns, the two snapshots have returned and it is
`setupPure`. -/
theorem setup_ok {pa : PulseAudio} {srv : Server} {r : PulseAudio × Server}
    (h : setup pa srv = .ok r) :
    PlaybackReadable srv ∧ RecordingReadable srv ∧ setupPure pa srv = .ok r := by
  by_cases hp : PlaybackReadable srv
  · by_cases hr : RecordingReadable srv
    · exact ⟨hp, hr, by rw [← setup_of_snapshots pa srv hp hr]; exact h⟩
    · obtain ⟨e, he⟩ := setup_recording_fault pa srv hp hr
      rw [he] at h; cases h
  · obtain ⟨e, he⟩ := setup_playback_fault pa srv hp
    rw [he] at h; cases h

/-- `destroy` returns when each revert that has a target can enumerate; it is
then `destroyPure`. -/
theorem destroy_returns (pa : PulseAudio) (srv : Server)
    (hr : pa.movedApplication.isSome = true → RecordingReadable srv)
    (hp : pa.movedPassthroughApplication.isSome = true → PlaybackReadable srv) :
    destroy pa srv = .ok (destroyPure pa srv) := by
  have h1 := stopSoundInputPure_handles pa srv
  have h2 : (stopSoundInputPure pa srv).2.1.movedPassthroughApplication.isSome = true →
      PlaybackReadable (stopSoundInputPure pa srv).2.2 := by
    intro h
    rw [h1.2.2.2] at h
    exact (stopSoundInputPure_step pa srv).keepsPlayback (hp h)
  unfold destroy destroyPure revertDefault
  simp only []
  rw [stopSoundInput_returns pa srv hr]
  rcases hs : stopSoundInputPure pa srv with ⟨b, pa1, srv1⟩
  rw [hs] at h2
  simp only []
  rw [stopPassthrough_returns pa1 srv1 h2]

/-! ## Claims -/

/-- The call with a record that already is the target by name. -/
theorem passthroughFrom_same (app t : PlaybackApp) (pa : PulseAudio) (srv : Server)
    (hm : pa.movedPassthroughApplication = some t) (hn : t.name = app.name) :
    passthroughFrom (some app) pa srv = .ok (true, pa, srv) := by
  unfold passthroughFrom alreadyMoved
  rw [hm]
  simp [hn]

/-- Where the records can be read, `getPlaybackApps` returns, in the server's
order, the sink inputs whose driver is present and equal to
"protocol-native.c", and `getRecordingApps` the source outputs with that
driver whose resample method is not "peaks"; each record carries the server
record's index as id and its sink or source as device. -/
theorem getApps_filtering_readable (srv : Server) :
    (PlaybackReadable srv →
      ∃ srv1, getPlaybackApps srv
        = .ok ((srv.sinkInputs.filter fun i => decide (i.driver = some "protocol-native.c")).map
            (fun i => { id := i.index, sink := i.sink, name := nameOf i.proplist,
                        pid := pidOf i.proplist, application := binaryOf i.proplist }), srv1))
    ∧ (RecordingReadable srv →
      ∃ srv1, getRecordingApps srv
        = .ok ((srv.sourceOutputs.filter fun o =>
              decide (o.driver = some "protocol-native.c"
                ∧ o.resampleMethod ≠ some "peaks")).map
            (fun o => { id := o.index, source := o.source, name := nameOf o.proplist,
                        pid := pidOf o.proplist, application := binaryOf o.proplist }), srv1)) := by
  refine ⟨fun h => ⟨(getPlaybackAppsPure srv).2, getPlaybackApps_readable srv h⟩, fun h => ?_⟩
  refine ⟨(getRecordingAppsPure srv).2, ?_⟩
  rw [getRecordingApps_readable srv h]
  have : (getRecordingAppsPure srv).1
      = (srv.sourceOutputs.filter fun o =>
              decide (o.driver = some "protocol-native.c"
                ∧ o.resampleMethod ≠ some "peaks")).map
            (fun o => { id := o.index, source := o.source, name := nameOf o.proplist,
                        pid := pidOf o.proplist, application := binaryOf o.proplist }) := by
    rw [getRecordingAppsPure_fst]
    congr 1
    apply List.filter_congr
    intro o _
    simp [capturingSourceOutput]
  rw [← this]

/-- C10. `getPlaybackApps` and `getRecordingApps` do not return a list for
every list of server records. On a sink input with driver "protocol-native.c"
and no "application.name" the callback makes a `std::string` from the null
pointer `pa_proplist_gets` returns; on a source output with that driver whose
"application.process.id" is "2147483648" `std::stoi` throws and the process
terminates. Neither call returns the other native record of its list. -/
theorem getApps_abort_on_unreadable_record :
    namelessServer.sinkInputs = [musicInput, namelessInput]
    ∧ namelessInput.driver = some "protocol-native.c"
    ∧ pa_proplist_gets namelessInput.proplist "application.name" = none
    ∧ getPlaybackApps namelessServer = .error .nullDereference
    ∧ bigPidServer.sourceOutputs = [chatOutput, bigPidOutput]
    ∧ bigPidOutput.driver = some "protocol-native.c"
    ∧ bigPidOutput.resampleMethod = none
    ∧ pa_proplist_gets bigPidOutput.proplist "application.process.id" = some "2147483648"
    ∧ stoi "2147483648" = none
    ∧ getRecordingApps bigPidServer = .error .terminate :=
  ⟨rfl, rfl, rfl, rfl, rfl, rfl, rfl, rfl, rfl, rfl⟩

/-- C3. With the browser as passthrough target, `passthroughFrom` called with
a null `app` does not return false: its first condition reads `app->name`
through the null pointer. -/
theorem passthroughFrom_null_with_target :
    passthroughFrom none browserAudio exampleServer = .error .nullDereference := rfl

/-- C4. Idempotence of `passthroughFrom`: when a call returns, a second call
with the same record, right after it, returns what the first returned, leaves
the backend as the first left it and leaves every stream on the device the
first left it on; the first call returns whenever the enumeration does; and
when the target already has the record's name the call returns true and
changes neither the backend nor the server, whose trace gets no request. -/
theorem passthroughFrom_idempotent (app : PlaybackApp) (pa : PulseAudio) (srv : Server) :
    (∀ r pa1 srv1, passthroughFrom (some app) pa srv = .ok (r, pa1, srv1) →
        ∃ srv2, passthroughFrom (some app) pa1 srv1 = .ok (r, pa1, srv2)
          ∧ srv2.sinkInputs = srv1.sinkInputs ∧ srv2.sourceOutputs = srv1.sourceOutputs)
    ∧ ((∃ r0, getPlaybackApps srv = .ok r0) →
        ∃ r pa1 srv1, passthroughFrom (some app) pa srv = .ok (r, pa1, srv1))
    ∧ (∀ t, pa.movedPassthroughApplication = some t → t.name = app.name →
        passthroughFrom (some app) pa srv = .ok (true, pa, srv)) := by
  refine ⟨?_, ?_, fun t hm hn => passthroughFrom_same app t pa srv hm hn⟩
  · intro r pa1 srv1 h
    by_cases hex : ∃ t, pa.movedPassthroughApplication = some t ∧ t.name = app.name
    · obtain ⟨t, hm, hn⟩ := hex
      rw [passthroughFrom_same app t pa srv hm hn] at h
      simp only [Except.ok.injEq, Prod.mk.injEq] at h
      obtain ⟨rfl, rfl, rfl⟩ := h
      exact ⟨srv, passthroughFrom_same app t pa srv hm hn, rfl, rfl⟩
    · have hnew : ∀ t, pa.movedPassthroughApplication = some t → t.name ≠ app.name :=
        fun t hm hn => hex ⟨t, hm, hn⟩
      have hr := passthroughFrom_ok_new app pa srv _ hnew h
      rw [passthroughFrom_readable _ pa srv hr] at h
      obtain ⟨r', pa1', srv1', srv2, hf, hs, h3, h4⟩ := (passthroughFromPure_idempotent app pa srv).1
      rw [hf] at h
      simp only [Except.ok.injEq, Prod.mk.injEq] at h
      obtain ⟨rfl, rfl, rfl⟩ := h
      have hr1 := (passthroughFromPure_step app pa pa1' srv srv1' r' hf).readable hr
      exact ⟨srv2, by rw [passthroughFrom_readable _ pa1' srv1' hr1]; exact hs, h3, h4⟩
  · rintro ⟨r0, h0⟩
    have hr := (getPlaybackApps_ok h0).1
    obtain ⟨r, pa1, srv1, _, hf, _⟩ := (passthroughFromPure_idempotent app pa srv).1
    exact ⟨r, pa1, srv1, by rw [passthroughFrom_readable _ pa srv hr]; exact hf⟩

/-- C4, for the browser on the example server: from the idle backend the first
call returns true and so does the second, with the streams where the first
left them; and with the browser already the target the call leaves backend
and server as they are. -/
theorem passthroughFrom_idempotent_witness :
    (∃ pa1 srv1 srv2,
        passthroughFrom (some browserApp) idleAudio exampleServer = .ok (true, pa1, srv1)
        ∧ passthroughFrom (some browserApp) pa1 srv1 = .ok (true, pa1, srv2)
        ∧ srv2.sinkInputs = srv1.sinkInputs)
    ∧ passthroughFrom (some browserApp) browserAudio exampleServer
        = .ok (true, browserAudio, exampleServer) := by
  refine ⟨?_, (passthroughFrom_idempotent browserApp browserAudio exampleServer).2.2
    browserApp rfl rfl⟩
  have hfirst : ∃ pa1 srv1,
      passthroughFrom (some browserApp) idleAudio exampleServer = .ok (true, pa1, srv1) :=
    ⟨_, _, rfl⟩
  obtain ⟨pa1, srv1, h1⟩ := hfirst
  obtain ⟨srv2, h2, h3, _⟩ :=
    (passthroughFrom_idempotent browserApp idleAudio exampleServer).1 true pa1 srv1 h1
  exact ⟨pa1, srv1, srv2, h1, h2, h3⟩

/-- C5. On a server whose passthrough sink is sink 5, with both streams on
sink 0 at first, `passthroughFrom` of the browser and then of the music player
succeeds twice, every move sent is accepted, and the browser's stream is left
on the passthrough sink next to the music player's: the revert looks at the
first enumerated stream only. -/
theorem passthroughFrom_twice_leaves_first :
    ∃ pa1 srv1 pa2 srv2,
      passthroughFrom (some browserApp) idleAudio twoStreamServer = .ok (true, pa1, srv1)
      ∧ passthroughFrom (some musicApp) pa1 srv1 = .ok (true, pa2, srv2)
      ∧ srv2.sinkInputs.map (fun i => (nameOf i.proplist, i.sink))
          = [("Music", 5), ("Browser", 5)]
      ∧ twoStreamServer.sinkByName "soundux_sink_passthrough" = some 5
      ∧ twoStreamServer.sinkInputs.map (fun i => (nameOf i.proplist, i.sink))
          = [("Music", 0), ("Browser", 0)]
      ∧ ∀ r ∈ srv2.log, r = .getSinkInputInfoList ∨ twoStreamServer.accepts r = true :=
  ⟨_, _, _, _, rfl, rfl, rfl, rfl, rfl, by decide⟩

/-- C6. With a passthrough target set and a server that enumerates no playback
stream, `stopPassthrough` returns true and the target is still set, so
`isCurrentlyPassingThrough` answers true. -/
theorem stopPassthrough_keeps_target_without_streams :
    ∃ pa1 srv1, stopPassthrough browserAudio silentServer = .ok (true, pa1, srv1)
      ∧ pa1.movedPassthroughApplication = some browserApp
      ∧ isCurrentlyPassingThrough pa1 = true :=
  ⟨_, _, rfl, rfl, rfl⟩

/-- C7. With the browser as target and the browser's stream enumerated second,
`stopPassthrough` sends the enumeration request and no move, and returns
false. -/
theorem stopPassthrough_skips_later_match :
    (∃ srv0, getPlaybackApps twoStreamServer = .ok ([musicApp, browserApp], srv0))
    ∧ ∃ pa1 srv1, stopPassthrough browserAudio twoStreamServer = .ok (false, pa1, srv1)
        ∧ srv1.log = [.getSinkInputInfoList] :=
  ⟨⟨_, rfl⟩, _, _, rfl, rfl⟩

/-- C9. With a server that rejects the move of the chat program's stream onto
"soundux_sink.monitor", `inputSoundTo` returns true and sets
`movedApplication` to the record. -/
theorem inputSoundTo_ignores_rejected_move :
    (∃ srv0, getRecordingApps refusingServer = .ok ([chatApp], srv0))
    ∧ refusingServer.accepts (.moveSourceOutputByName chatApp.id "soundux_sink.monitor") = false
    ∧ ∃ pa1 srv1, inputSoundTo (some chatApp) idleAudio refusingServer = .ok (true, pa1, srv1)
        ∧ pa1.movedApplication = some chatApp :=
  ⟨⟨_, rfl⟩, rfl, _, _, rfl, rfl⟩

/-- C8, as the claim states it, fails where the record already is the injection
target by name. With `movedApplication` the chat program as recorded on
source 1 and the chat program's stream listed on source 7, on a server that
accepts every move: `inputSoundTo` of the listed record returns true and does
nothing, `stopSoundInput` returns true and clears `movedApplication`, and the
stream is then on source 1, not on the record's source 7. -/
theorem inputSoundTo_stopSoundInput_already_target :
    (∃ srv0, getRecordingApps movedChatServer = .ok ([movedChatApp], srv0))
    ∧ movedChatApp.source = 7
    ∧ chatAudio.movedApplication = some chatApp
    ∧ (∀ i k, movedChatServer.accepts (.moveSourceOutputByIndex i k) = true)
    ∧ (∀ i, movedChatServer.accepts (.moveSourceOutputByName i "soundux_sink.monitor") = true)
    ∧ inputSoundTo (some movedChatApp) chatAudio movedChatServer
        = .ok (true, chatAudio, movedChatServer)
    ∧ ∃ srv2 srv3,
        stopSoundInput chatAudio movedChatServer
          = .ok (true, { chatAudio with movedApplication := none }, srv2)
        ∧ srv2.sourceOutputs.map (fun o => (o.index, o.source)) = [(8, 1)]
        ∧ getRecordingApps srv2 = .ok ([chatApp], srv3)
        ∧ movedChatApp ∉ [chatApp] :=
  ⟨⟨_, rfl⟩, rfl, rfl, fun _ _ => rfl, fun _ => rfl, rfl, _, _, rfl, rfl, rfl, by decide⟩

/-- C8, amended. Revert correctness: for a recording record `app` taken from
the current listing and not already the injection target by name, and a
server that accepts every source-output move back to `app.source`,
`inputSoundTo(app)` followed by `stopSoundInput()` returns true both times,
leaves `movedApplication` empty, lists `app` again with its source
`app.source`, and leaves every listed stream named `app.name` on that
source. -/
theorem inputSoundTo_stopSoundInput_reverts (app : RecordingApp) (pa : PulseAudio)
    (srv srv0 : Server) (apps : List PulseRecordingApp)
    (henum : getRecordingApps srv = .ok (apps, srv0))
    (hlisted : app ∈ apps)
    (hnew : ∀ t, pa.movedApplication = some t → t.name ≠ app.name)
    (hacc : ∀ i, srv.accepts (.moveSourceOutputByIndex i app.source) = true) :
    ∃ pa1 srv1 srv2 apps2 srv3,
      inputSoundTo (some app) pa srv = .ok (true, pa1, srv1)
      ∧ stopSoundInput pa1 srv1 = .ok (true, { pa with movedApplication := none }, srv2)
      ∧ getRecordingApps srv2 = .ok (apps2, srv3)
      ∧ app ∈ apps2
      ∧ (∀ p ∈ apps2, p.name = app.name → p.source = app.source)
      ∧ ∀ o ∈ srv2.sourceOutputs, capturingSourceOutput o = true →
          nameOf o.proplist = app.name → o.source = app.source := by
  obtain ⟨hr, he⟩ := getRecordingApps_ok henum
  have hl : apps = (getRecordingAppsPure srv).1 := congrArg Prod.fst he
  subst hl
  obtain ⟨pa1, srv1, srv2, h1, h2, h3, h4⟩ := inputSoundToPure_reverts app pa srv hlisted hnew hacc
  have hs1 : SourceStep srv srv1 := by
    have := inputSoundToPure_step (some app) pa srv
    rw [h1] at this
    exact this
  have hr1 := hs1.keepsRecording hr
  have hs2 : SourceStep srv1 srv2 := by
    have := stopSoundInputPure_step pa1 srv1
    rw [h2] at this
    exact this
  have hr2 := hs2.keepsRecording hr1
  refine ⟨pa1, srv1, srv2, (getRecordingAppsPure srv2).1, (getRecordingAppsPure srv2).2,
    ?_, ?_, getRecordingApps_readable srv2 hr2, h3, ?_, h4⟩
  · rw [inputSoundTo_readable _ pa srv hr, h1]
  · rw [stopSoundInput_returns pa1 srv1 (fun _ => hr1), h2]
  · intro p hp hn
    rw [getRecordingAppsPure_fst] at hp
    obtain ⟨o, ho, rfl⟩ := List.mem_map.mp hp
    obtain ⟨ho, hc⟩ := List.mem_filter.mp ho
    exact h4 o ho hc hn

/-- C8, amended, for the chat program on the example server with no
injection target: after the round trip it is listed on source 1 again. -/
theorem inputSoundTo_stopSoundInput_reverts_witness :
    ∃ pa1 srv1 srv2 apps2 srv3,
      inputSoundTo (some chatApp) idleAudio exampleServer = .ok (true, pa1, srv1)
      ∧ stopSoundInput pa1 srv1 = .ok (true, { idleAudio with movedApplication := none }, srv2)
      ∧ getRecordingApps srv2 = .ok (apps2, srv3)
      ∧ chatApp ∈ apps2
      ∧ (∀ p ∈ apps2, p.name = chatApp.name → p.source = chatApp.source)
      ∧ ∀ o ∈ srv2.sourceOutputs, capturingSourceOutput o = true →
          nameOf o.proplist = chatApp.name → o.source = chatApp.source :=
  inputSoundTo_stopSoundInput_reverts chatApp idleAudio exampleServer
    (getRecordingAppsPure exampleServer).2 (getRecordingAppsPure exampleServer).1 rfl
    (by decide) (by intro t ht; cases ht) (by intro i; rfl)

/-- C11, as the claim states it, fails where a module of the initial set has
"soundux" in its argument: on `crashedServer` `setup` succeeds, with root
indices that no initial module has, and after `destroy` the null sink left by
an earlier run is gone, so the modules are not the initial ones. -/
theorem destroy_after_setup_drops_leftover :
    setup idleAudio crashedServer = .ok (crashedSetup.1, crashedSetup.2)
    ∧ crashedServer.modules = [alsaCard, leftoverSink]
    ∧ (∃ pa3 srv3, destroy crashedSetup.1 crashedSetup.2 = .ok (pa3, srv3)
        ∧ srv3.modules = [alsaCard]
        ∧ srv3.modules ≠ crashedServer.modules)
    ∧ (∀ m ∈ crashedServer.modules,
        m.index ≠ crashedSetup.1.nullSink ∧ m.index ≠ crashedSetup.1.loopBack
          ∧ m.index ≠ crashedSetup.1.passthrough) :=
  ⟨rfl, rfl, ⟨_, _, rfl, by decide, by decide⟩, by decide⟩

/-- C11, amended. Over a server that, on an unload, also removes the modules
that reference the unloaded one: when `setup` succeeds and no module of the
initial set has the index of one of the three roots, then for every backend
with the handles of `setup` and every server with the modules `setup` left
(whatever the redirections and the streams, the enumeration that an active
redirection asks for returning), `destroy` returns, the modules after it are
the modules the cleanup of `setup` left of the initial set, which is the
initial set itself when none of its modules is a leftover; and the unload
requests of `destroy` are `nullSink`, `loopBack`, `passthrough`, in that
order. -/
theorem destroy_after_setup (pa pa1 pa2 : PulseAudio) (srv srv1 srv2 : Server)
    (hsetup : setup pa srv = .ok (pa1, srv1))
    (hfresh : ∀ m ∈ srv.modules,
      m.index ≠ pa1.nullSink ∧ m.index ≠ pa1.loopBack ∧ m.index ≠ pa1.passthrough)
    (hhandles : pa2.nullSink = pa1.nullSink ∧ pa2.loopBack = pa1.loopBack
      ∧ pa2.passthrough = pa1.passthrough)
    (hmodules : srv2.modules = srv1.modules)
    (hrec : pa2.movedApplication.isSome = true → ∃ r, getRecordingApps srv2 = .ok r)
    (hplay : pa2.movedPassthroughApplication.isSome = true →
      ∃ r, getPlaybackApps srv2 = .ok r) :
    ∃ pa3 srv3, destroy pa2 srv2 = .ok (pa3, srv3)
      ∧ srv3.modules = (unloadLeftOvers srv).modules
      ∧ ((∀ m ∈ srv.modules, isLeftOver m = false) → srv3.modules = srv.modules)
      ∧ unloadsIn srv3.log
          = unloadsIn srv2.log ++ [pa2.nullSink, pa2.loopBack, pa2.passthrough] := by
  have hpure := (setup_ok hsetup).2.2
  have hr : pa2.movedApplication.isSome = true → RecordingReadable srv2 := by
    intro h
    obtain ⟨r, hr⟩ := hrec h
    exact (getRecordingApps_ok hr).1
  have hp : pa2.movedPassthroughApplication.isSome = true → PlaybackReadable srv2 := by
    intro h
    obtain ⟨r, hr⟩ := hplay h
    exact (getPlaybackApps_ok hr).1
  exact ⟨(destroyPure pa2 srv2).1, (destroyPure pa2 srv2).2, destroy_returns pa2 srv2 hr hp,
    destroyPure_after_setup pa pa1 pa2 srv srv1 srv2 hpure hfresh hhandles hmodules⟩

/-- C11, amended, on `cleanServer` with the browser redirected at teardown:
the modules after `destroy` are the initial ones, and the unload requests are
those of the three roots. -/
theorem destroy_after_setup_witness :
    ∃ pa3 srv3,
      destroy { cleanSetup.1 with movedPassthroughApplication := some browserApp } cleanSetup.2
        = .ok (pa3, srv3)
      ∧ srv3.modules = [alsaCard, nativeProtocol]
      ∧ unloadsIn srv3.log = unloadsIn cleanSetup.2.log ++ [10, 11, 12] := by
  obtain ⟨pa3, srv3, hd, _, hclean, hu⟩ := destroy_after_setup idleAudio cleanSetup.1
    { cleanSetup.1 with movedPassthroughApplication := some browserApp }
    cleanServer cleanSetup.2 cleanSetup.2 rfl (by decide) ⟨rfl, rfl, rfl⟩ rfl
    (fun _ => ⟨_, rfl⟩) (fun _ => ⟨_, rfl⟩)
  exact ⟨pa3, srv3, hd, hclean (by decide), hu⟩

/-- C14. The unload requests of `unloadLeftOvers` are, in the server's order,
the indices of the modules that have an argument in which "soundux" occurs,
and no other; it sends no load request. A module stays loaded when no
leftover has its index and it references no module with a leftover's index.
In `setup`, returning or ending in a fault, the trace is the trace of this
cleanup followed by requests among which there is no unload: every load
request of `setup` comes after the cleanup. -/
theorem unloadLeftOvers_unloads_leftovers (pa : PulseAudio) (srv : Server) :
    unloadsIn (unloadLeftOvers srv).log
        = unloadsIn srv.log
          ++ (srv.modules.filter fun m =>
                match m.argument with
                | some argument => decide ("soundux".data <:+: argument.data)
                | none => false).map (fun m => m.index)
    ∧ loadsIn (unloadLeftOvers srv).log = loadsIn srv.log
    ∧ (∀ m ∈ srv.modules,
        (∀ r ∈ srv.modules, isLeftOver r = true →
          m.index ≠ r.index ∧ ∀ x ∈ srv.modules, x.index = r.index → references m x = false) →
        m ∈ (unloadLeftOvers srv).modules)
    ∧ ∃ rest, (serverAfter (setup pa srv)).log = (unloadLeftOvers srv).log ++ rest
        ∧ unloadsIn rest = []
        ∧ loadsIn (serverAfter (setup pa srv)).log = loadsIn srv.log ++ loadsIn rest := by
  refine ⟨?_, loadsIn_unloadLeftOvers srv, ?_, ?_⟩
  pick_goal 2
  · intro m hm hfree
    rw [unloadLeftOvers_eq]
    exact foldl_unloadLeftOversCallback_keeps srv.modules _ m hm hfree
  · rw [unloadLeftOvers_log, unloadsIn_append, unloadsIn_append, unloadsIn_unloads]
    have : isLeftOver = fun m : ModuleInfo =>
        match m.argument with
        | some argument => decide ("soundux".data <:+: argument.data)
        | none => false := by
      funext m; rfl
    rw [this]
    simp [unloadsIn]
  · by_cases hp : PlaybackReadable srv
    · by_cases hr : RecordingReadable srv
      · rw [setup_of_snapshots pa srv hp hr]
        exact setupPure_trace pa srv
      · obtain ⟨e, he⟩ := setup_recording_fault pa srv hp hr
        refine ⟨[.getServerInfo, .getSinkInputInfoList, .getSourceOutputInfoList], ?_, ?_, ?_⟩
        · rw [he]; rfl
        · rfl
        · rw [he]
          simp only [serverAfter, loadsIn_append, loadsIn_unloadLeftOvers]
    · obtain ⟨e, he⟩ := setup_playback_fault pa srv hp
      refine ⟨[.getServerInfo, .getSinkInputInfoList], ?_, ?_, ?_⟩
      · rw [he]; rfl
      · rfl
      · rw [he]
        simp only [serverAfter, loadsIn_append, loadsIn_unloadLeftOvers]

/-- C14 on `crashedServer`: the cleanup asks for the unload of module 3, the
null sink left behind, and of no other module. -/
theorem unloadLeftOvers_unloads_leftovers_witness :
    unloadsIn (unloadLeftOvers crashedServer).log = [3]
    ∧ alsaCard ∈ (unloadLeftOvers crashedServer).modules := by
  refine ⟨?_, ?_⟩
  · rw [(unloadLeftOvers_unloads_leftovers idleAudio crashedServer).1]
    decide
  · exact (unloadLeftOvers_unloads_leftovers idleAudio crashedServer).2.2.1 alsaCard
      (by decide) (by decide)

end Soundux.Objects
